import Mathlib

/-!
Verification of the supernova-image HDR conversion core against its
specification.  The development shallowly embeds the TypeScript sources:

* `src/lib/look-controls.ts` — bounded look-control knobs and normalization;
* `src/lib/hdr-boost.ts` — shared boost calibration;
* `src/lib/pq.ts` — the export (PQ BT.2020 RGB16) and preview (sRGB RGBA8)
  color pipelines, with the exact PQ transfer function and its 32768-entry
  interpolated table;
* `src/lib/encode-png.ts` — the byte-exact PNG container encoder and the
  per-backend ICC-chunk cache;
* `src/lib/worker-runtime.ts` — request validation, cancellation
  checkpoints and the convert/preview runtime.

Numbers that the code manipulates as IEEE doubles are modelled as exact
real numbers; byte and integer data are modelled as `Nat`/`Int` with
explicit reductions modulo 2^16/2^32 where the typed arrays wrap.
External collaborators (blob decoding, deflate, the ICC asset fetch, the
canvas resizer) are universally quantified parameters.
-/

namespace Supernova

/-- JS `Math.round`: round half up, i.e. the floor of `x + 1/2`. -/
noncomputable def jsRound (x : ℝ) : ℤ := ⌊x + 1/2⌋

/-- The `clamp(v, min, max)` helper that both `pq.ts` and
`look-controls.ts` define as `Math.max(min, Math.min(max, v))`. -/
noncomputable def clamp (v lo hi : ℝ) : ℝ := max lo (min hi v)

lemma jsRound_mono {x y : ℝ} (h : x ≤ y) : jsRound x ≤ jsRound y :=
  Int.floor_le_floor (by linarith)

lemma jsRound_eq {x : ℝ} {z : ℤ} (h1 : (z:ℝ) ≤ x + 1/2) (h2 : x + 1/2 < z + 1) :
    jsRound x = z := by
  unfold jsRound
  exact Int.floor_eq_iff.mpr ⟨h1, h2⟩

lemma clamp_mem {v lo hi : ℝ} (h : lo ≤ hi) : lo ≤ clamp v lo hi ∧ clamp v lo hi ≤ hi :=
  ⟨le_max_left _ _, max_le h (min_le_left _ _)⟩

lemma clamp_mono {v w lo hi : ℝ} (h : v ≤ w) : clamp v lo hi ≤ clamp w lo hi := by
  unfold clamp
  exact max_le_max le_rfl (min_le_min le_rfl h)

lemma clamp_eq_self {v lo hi : ℝ} (h1 : lo ≤ v) (h2 : v ≤ hi) : clamp v lo hi = v := by
  unfold clamp
  rw [min_eq_right h2, max_eq_right h1]

/-- Reduce an upper bound on a real rational power `x ^ (p/q)` to an
integer power inequality `x ^ p ≤ u ^ q`. -/
lemma rpow_ratio_le_of_pow_le {x u : ℝ} (p q : ℕ) (hx : 0 ≤ x) (hu : 0 ≤ u) (hq : q ≠ 0)
    (h : x ^ p ≤ u ^ q) : x ^ ((p:ℝ)/(q:ℝ)) ≤ u := by
  have hb : (0:ℝ) ≤ x ^ ((p:ℝ)/(q:ℝ)) := Real.rpow_nonneg hx _
  have key : (x ^ ((p:ℝ)/(q:ℝ))) ^ q = x ^ p := by
    rw [← Real.rpow_natCast (x ^ ((p:ℝ)/(q:ℝ))) q, ← Real.rpow_mul hx,
      div_mul_cancel₀, Real.rpow_natCast]
    exact_mod_cast hq
  exact (pow_le_pow_iff_left₀ hb hu hq).mp (by rw [key]; exact h)

/-- Reduce a lower bound on a real rational power `x ^ (p/q)` to an
integer power inequality `l ^ q ≤ x ^ p`. -/
lemma le_rpow_ratio_of_pow_le {x l : ℝ} (p q : ℕ) (hx : 0 ≤ x) (hl : 0 ≤ l) (hq : q ≠ 0)
    (h : l ^ q ≤ x ^ p) : l ≤ x ^ ((p:ℝ)/(q:ℝ)) := by
  have hb : (0:ℝ) ≤ x ^ ((p:ℝ)/(q:ℝ)) := Real.rpow_nonneg hx _
  have key : (x ^ ((p:ℝ)/(q:ℝ))) ^ q = x ^ p := by
    rw [← Real.rpow_natCast (x ^ ((p:ℝ)/(q:ℝ))) q, ← Real.rpow_mul hx,
      div_mul_cancel₀, Real.rpow_natCast]
    exact_mod_cast hq
  exact (pow_le_pow_iff_left₀ hl hb hq).mp (by rw [key]; exact h)

/-- Compare two rational literals raised to (possibly different) natural
powers by cross-multiplying, so `norm_num` can settle the integer sides. -/
lemma rat_div_pow_le {a b c d : ℕ} (p q : ℕ) (hb : 0 < b) (hd : 0 < d)
    (h : a ^ p * d ^ q ≤ c ^ q * b ^ p) : ((a:ℝ)/b) ^ p ≤ ((c:ℝ)/d) ^ q := by
  have hb' : (0:ℝ) < (b:ℝ) ^ p := by positivity
  have hd' : (0:ℝ) < (d:ℝ) ^ q := by positivity
  rw [div_pow, div_pow, div_le_div_iff₀ hb' hd']
  exact_mod_cast h

/-! ### `look-controls.ts` -/

/-- The full set of look-control knobs from `look-controls.ts`
(`LookControls = Record<keyof typeof LOOK_CONTROL_RANGES, number>`). -/
structure LookControls where
  exposure : ℝ
  saturation : ℝ
  temperature : ℝ
  tint : ℝ
  gamma : ℝ
  contrast : ℝ
  blacks : ℝ
  whites : ℝ
  clarity : ℝ
  highlightSaturation : ℝ
  highlightRollOff : ℝ
  shadowLift : ℝ
  shadowGlow : ℝ
  vibrance : ℝ

/-- A `Partial<LookControls>` value: each field may be absent. -/
structure LookInput where
  exposure : Option ℝ
  saturation : Option ℝ
  temperature : Option ℝ
  tint : Option ℝ
  gamma : Option ℝ
  contrast : Option ℝ
  blacks : Option ℝ
  whites : Option ℝ
  clarity : Option ℝ
  highlightSaturation : Option ℝ
  highlightRollOff : Option ℝ
  shadowLift : Option ℝ
  shadowGlow : Option ℝ
  vibrance : Option ℝ

/-- The `undefined` argument of `normalizeLookControls` (no field given). -/
def emptyLookInput : LookInput :=
  ⟨none, none, none, none, none, none, none, none, none, none, none, none, none, none⟩

/-- `DEFAULT_LOOK_CONTROLS`: the `defaultValue` of each declared range. -/
noncomputable def DEFAULT_LOOK_CONTROLS : LookControls :=
  ⟨0, 1, 0, 0, 1, 1, 0, 0, 0, 1, 1, 0, 0, 1⟩

/-- `normalizeLookControls` from `look-controls.ts`: merge the partial
input over the defaults, then clamp every field to its declared
`LOOK_CONTROL_RANGES` interval. -/
noncomputable def normalizeLookControls (input : LookInput) : LookControls :=
  ⟨clamp (input.exposure.getD 0) (-2) 2,
   clamp (input.saturation.getD 1) 1 1.6,
   clamp (input.temperature.getD 0) (-1) 1,
   clamp (input.tint.getD 0) (-1) 1,
   clamp (input.gamma.getD 1) 0.1 3,
   clamp (input.contrast.getD 1) 0.75 1.35,
   clamp (input.blacks.getD 0) (-0.4) 0.4,
   clamp (input.whites.getD 0) (-0.4) 0.4,
   clamp (input.clarity.getD 0) (-0.5) 0.5,
   clamp (input.highlightSaturation.getD 1) 0.7 1.3,
   clamp (input.highlightRollOff.getD 1) 0.7 1.4,
   clamp (input.shadowLift.getD 0) 0 1,
   clamp (input.shadowGlow.getD 0) 0 0.5,
   clamp (input.vibrance.getD 1) 1 1.5⟩

/-- Every field of the normalized record lies inside its declared range. -/
def LookControlsInRange (c : LookControls) : Prop :=
  (-2 ≤ c.exposure ∧ c.exposure ≤ 2) ∧
  (1 ≤ c.saturation ∧ c.saturation ≤ 1.6) ∧
  (-1 ≤ c.temperature ∧ c.temperature ≤ 1) ∧
  (-1 ≤ c.tint ∧ c.tint ≤ 1) ∧
  (0.1 ≤ c.gamma ∧ c.gamma ≤ 3) ∧
  (0.75 ≤ c.contrast ∧ c.contrast ≤ 1.35) ∧
  (-0.4 ≤ c.blacks ∧ c.blacks ≤ 0.4) ∧
  (-0.4 ≤ c.whites ∧ c.whites ≤ 0.4) ∧
  (-0.5 ≤ c.clarity ∧ c.clarity ≤ 0.5) ∧
  (0.7 ≤ c.highlightSaturation ∧ c.highlightSaturation ≤ 1.3) ∧
  (0.7 ≤ c.highlightRollOff ∧ c.highlightRollOff ≤ 1.4) ∧
  (0 ≤ c.shadowLift ∧ c.shadowLift ≤ 1) ∧
  (0 ≤ c.shadowGlow ∧ c.shadowGlow ≤ 0.5) ∧
  (1 ≤ c.vibrance ∧ c.vibrance ≤ 1.5)

/-- C5.  For every partial input — fields missing or out of range — the
record returned by `normalizeLookControls` lies within each field's
declared range, and normalizing the absent input yields exactly the
declared defaults. -/
theorem normalizeLookControls_range_and_defaults :
    (∀ input : LookInput, LookControlsInRange (normalizeLookControls input)) ∧
    normalizeLookControls emptyLookInput = DEFAULT_LOOK_CONTROLS := by
  constructor
  · intro input
    unfold LookControlsInRange normalizeLookControls
    refine ⟨?_, ?_, ?_, ?_, ?_, ?_, ?_, ?_, ?_, ?_, ?_, ?_, ?_, ?_⟩ <;>
      exact clamp_mem (by norm_num)
  · unfold normalizeLookControls emptyLookInput DEFAULT_LOOK_CONTROLS
    simp only [Option.getD_none]
    congr 1 <;> exact clamp_eq_self (by norm_num) (by norm_num)

/-! ### `hdr-boost.ts` -/

noncomputable def SDR_DIFFUSE_WHITE_NITS : ℝ := 100

noncomputable def PQ_MAX_NITS : ℝ := 10000

noncomputable def SDR_TO_PQ_SCALE : ℝ := SDR_DIFFUSE_WHITE_NITS / PQ_MAX_NITS

noncomputable def BOOST_UI_MIN : ℝ := 1

noncomputable def BOOST_UI_MAX : ℝ := 10

noncomputable def BOOST_TARGET_NITS_AT_MAX : ℝ := 10000

/-- `BOOST_EXPONENT = log(targetMaxNits/diffuseWhiteNits) / log(boostSliderMax)`. -/
noncomputable def BOOST_EXPONENT : ℝ :=
  Real.log (BOOST_TARGET_NITS_AT_MAX / SDR_DIFFUSE_WHITE_NITS) / Real.log BOOST_UI_MAX

/-- `effectiveBoost(boost) = Math.pow(Math.max(boost, 0), BOOST_EXPONENT)`. -/
noncomputable def effectiveBoost (boost : ℝ) : ℝ := (max boost 0) ^ BOOST_EXPONENT

/-- `boostToPQGain(boost) = effectiveBoost(boost) * SDR_TO_PQ_SCALE`. -/
noncomputable def boostToPQGain (boost : ℝ) : ℝ := effectiveBoost boost * SDR_TO_PQ_SCALE

/-- With the shipped calibration constants the shared boost exponent is 2. -/
lemma boostExponent_eq_two : BOOST_EXPONENT = 2 := by
  unfold BOOST_EXPONENT BOOST_TARGET_NITS_AT_MAX SDR_DIFFUSE_WHITE_NITS BOOST_UI_MAX
  have h1 : (10000:ℝ)/100 = 10 ^ (2:ℕ) := by norm_num
  rw [h1, Real.log_pow]
  have h10 : Real.log 10 ≠ 0 := by
    have := Real.log_pos (by norm_num : (1:ℝ) < 10)
    linarith
  field_simp

lemma boostToPQGain_eq (boost : ℝ) : boostToPQGain boost = (max boost 0) ^ 2 / 100 := by
  unfold boostToPQGain effectiveBoost SDR_TO_PQ_SCALE SDR_DIFFUSE_WHITE_NITS PQ_MAX_NITS
  rw [boostExponent_eq_two]
  rw [show ((2:ℝ) = ((2:ℕ):ℝ)) by norm_num, Real.rpow_natCast]
  ring

/-! ### `pq.ts`: constants and the PQ transfer function -/

noncomputable def pqM1 : ℝ := 2610 / 16384

noncomputable def pqM2 : ℝ := 2523 / 4096 * 128

noncomputable def pqC1 : ℝ := 3424 / 4096

noncomputable def pqC2 : ℝ := 2413 / 4096 * 32

noncomputable def pqC3 : ℝ := 2392 / 4096 * 32

lemma pqM1_eq : pqM1 = ((1305:ℕ):ℝ) / ((8192:ℕ):ℝ) := by unfold pqM1; norm_num

lemma pqM2_eq : pqM2 = ((2523:ℕ):ℝ) / ((32:ℕ):ℝ) := by unfold pqM2; norm_num

/-- `pqOETF(L) = ((c1 + c2*L^m1)/(1 + c3*L^m1))^m2` — the exact ST 2084
rational polynomial. -/
noncomputable def pqOETF (L : ℝ) : ℝ :=
  ((pqC1 + pqC2 * L ^ pqM1) / (1 + pqC3 * L ^ pqM1)) ^ pqM2

/-- The 32768-entry PQ lookup table: `pqLUT[i] = pqOETF(i / PQ_LUT_SCALE)`
(modelled as a function of the index; the loop fills `i = 0..32768`). -/
noncomputable def pqLUT (i : ℕ) : ℝ := pqOETF ((i:ℝ) / 32768)

/-- `pqOETFFast`: clamp outside `(0,1)`, otherwise linearly interpolate
between the two adjacent table entries (`i = x | 0`, `t = x - i`). -/
noncomputable def pqOETFFast (L : ℝ) : ℝ :=
  if L ≤ 0 then 0
  else if 1 ≤ L then 1
  else
    let x := L * 32768
    let i := (⌊x⌋).toNat
    let t := x - (i:ℝ)
    pqLUT i + (pqLUT (i+1) - pqLUT i) * t

/-- The module-level `pqEncodeMode` state: `'lut'` (production default) or
`'exact'` (validation only). -/
inductive PQEncodeMode
  | lut
  | exact
deriving DecidableEq

/-- `pqEncode` dispatches on the mode. -/
noncomputable def pqEncode (mode : PQEncodeMode) (L : ℝ) : ℝ :=
  match mode with
  | .exact => pqOETF L
  | .lut => pqOETFFast L

/-- `softShoulderLuma(y, knee)`: identity below the knee, a rational
soft-compression curve above it. -/
noncomputable def softShoulderLuma (y knee : ℝ) : ℝ :=
  if y ≤ knee then y
  else knee + ((y - knee) * (1 - knee)) / ((y - knee) + (1 - knee))

/-- `srgbEOTF` — IEC 61966-2-1 piecewise decoding. -/
noncomputable def srgbEOTF (v : ℝ) : ℝ :=
  if v ≤ 0.04045 then v / 12.92 else ((v + 0.055) / 1.055) ^ ((2.4:ℝ))

/-- `srgbOETF` — the inverse encoding used by the preview path. -/
noncomputable def srgbOETF (linear : ℝ) : ℝ :=
  if linear ≤ 0.0031308 then linear * 12.92
  else 1.055 * linear ^ ((1:ℝ) / 2.4) - 0.055

/-- `previewToneMap`: PQ-normalized luminance back to an SDR-relative
scale, with a mild shoulder, clamped to `[0,1]`. -/
noncomputable def previewToneMap (y : ℝ) : ℝ :=
  clamp ((y / SDR_TO_PQ_SCALE) / (1 + 0.08 * (y / SDR_TO_PQ_SCALE))) 0 1

/-- `quantizeGamma(gamma) = Math.round(gamma * 1000) / 1000`. -/
noncomputable def quantizeGamma (gamma : ℝ) : ℝ := (jsRound (gamma * 1000) : ℝ) / 1000

/-- Entry `v` of the per-gamma linearization LUT built by
`getLinearizedGammaLUT`: the sRGB EOTF of `v/255`, raised to the
quantized gamma when that gamma is not 1. -/
noncomputable def gammaLUTValue (gamma : ℝ) (v : ℕ) : ℝ :=
  let g := quantizeGamma gamma
  let base := srgbEOTF ((v:ℝ) / 255)
  if g ≠ 1 then base ^ g else base

/-! ### `pq.ts`: the per-pixel export pipeline -/

/-- A linear-light RGB working triple. -/
structure RGB where
  r : ℝ
  g : ℝ
  b : ℝ

/-- `BT2020_LUMA` weighted luminance. -/
noncomputable def lumaY (p : RGB) : ℝ := 0.2627 * p.r + 0.6780 * p.g + 0.0593 * p.b

noncomputable def scaleRGB (p : RGB) (s : ℝ) : RGB := ⟨p.r * s, p.g * s, p.b * s⟩

/-- The saturation block (`if (sat !== 1.0)`), using the luminance `y`
computed before the block. -/
noncomputable def applySat (sat y : ℝ) (p : RGB) : RGB :=
  if sat ≠ 1 then ⟨y + (p.r - y) * sat, y + (p.g - y) * sat, y + (p.b - y) * sat⟩ else p

/-- The vibrance block (`if (vibranceDelta !== 0.0)`), reusing the same
pre-saturation luminance `y` exactly as the source loop does. -/
noncomputable def applyVib (vibranceDelta y : ℝ) (p : RGB) : RGB :=
  if vibranceDelta ≠ 0 then
    let mx := max p.r (max p.g p.b)
    let mn := min p.r (min p.g p.b)
    let chroma := mx - mn
    let saturationNorm := if 1e-6 < mx then chroma / (mx + 1e-6) else 0
    let vibranceFactor := 1 + vibranceDelta * (1 - saturationNorm)
    ⟨y + (p.r - y) * vibranceFactor, y + (p.g - y) * vibranceFactor,
      y + (p.b - y) * vibranceFactor⟩
  else p

/-- The contrast / shadow-lift block
(`if (contrast !== 1.0 || shadowLift > 0.0)`), which recomputes the
luminance of the current triple and reapplies the mapped luminance as a
uniform scale. -/
noncomputable def applyContrastLift (contrast shadowLift : ℝ) (p : RGB) : RGB :=
  if contrast ≠ 1 ∨ 0 < shadowLift then
    let y := lumaY p
    let yMapped0 := 0.18 + (y - 0.18) * contrast
    let yMapped :=
      if 0 < shadowLift then
        yMapped0 + shadowLift * (clamp (1 - yMapped0) 0 1) * (clamp (1 - yMapped0) 0 1)
      else yMapped0
    if 1e-6 < y then scaleRGB p (yMapped / y)
    else if 0 < yMapped then ⟨yMapped, yMapped, yMapped⟩
    else p
  else p

/-- The adaptive highlight shoulder: engaged only once the recomputed
luminance exceeds 1.0, and only if the mapped luminance is smaller. -/
noncomputable def applyShoulder (knee : ℝ) (p : RGB) : RGB :=
  let y := lumaY p
  if 1 < y then
    let yMapped := softShoulderLuma y knee
    if yMapped < y then scaleRGB p (yMapped / y) else p
  else p

/-- Store to a `Uint16Array` slot: quantize to 16 bits then wrap mod 2^16
(never actually wraps because the PQ value is in `[0,1]`). -/
noncomputable def u16Store (v : ℝ) : ℤ := jsRound (v * 65535) % 65536

/-- One iteration of the `processPixels` loop: gamma LUT lookups, the
sRGB→BT.2020 matrix scaled by the gain, the look blocks, the shoulder,
the clamp, and PQ encoding of the three channels. -/
noncomputable def pipelinePixel (look : LookControls) (gain knee : ℝ) (mode : PQEncodeMode)
    (rB gB bB : ℕ) : ℤ × ℤ × ℤ :=
  let r := gammaLUTValue look.gamma rB
  let g := gammaLUTValue look.gamma gB
  let b := gammaLUTValue look.gamma bB
  let p0 : RGB := ⟨(0.6274039 * r + 0.3292830 * g + 0.0433131 * b) * gain,
                   (0.0690973 * r + 0.9195404 * g + 0.0113623 * b) * gain,
                   (0.0163914 * r + 0.0880133 * g + 0.8955953 * b) * gain⟩
  let y0 := lumaY p0
  let p1 := applySat look.saturation y0 p0
  let p2 := applyVib (look.vibrance - 1) y0 p1
  let p3 := applyContrastLift look.contrast look.shadowLift p2
  let p4 := applyShoulder knee p3
  (u16Store (pqEncode mode (clamp p4.r 0 1)),
   u16Store (pqEncode mode (clamp p4.g 0 1)),
   u16Store (pqEncode mode (clamp p4.b 0 1)))

/-- An `ImageData`-like value: interleaved RGBA bytes plus dimensions. -/
structure ImageDataM where
  data : List ℕ
  width : ℕ
  height : ℕ

/-- The adaptive shoulder knee computed per call from the gain and the
normalized highlight roll-off. -/
noncomputable def shoulderKneeFor (gain rollOff : ℝ) : ℝ :=
  let scenePeak := min gain 1
  let baseShoulderKnee := clamp (scenePeak * 0.78) 0.05 0.85
  clamp (baseShoulderKnee / rollOff) 0.05 0.85

/-- Pixel `i` of the export transform (the body of the `processPixels`
loop, reading bytes `4i`, `4i+1`, `4i+2`). -/
noncomputable def processPixelsTriple (img : ImageDataM) (boost : ℝ) (input : LookInput)
    (mode : PQEncodeMode) (i : ℕ) : ℤ × ℤ × ℤ :=
  let look := normalizeLookControls input
  let gain := boostToPQGain boost
  pipelinePixel look gain (shoulderKneeFor gain look.highlightRollOff) mode
    (img.data.getD (i*4) 0) (img.data.getD (i*4+1) 0) (img.data.getD (i*4+2) 0)

/-- Write a triple at positions `3i`, `3i+1`, `3i+2` (out-of-bounds
writes are dropped, as on a typed array). -/
def writeTriple (a : List ℤ) (di : ℕ) (t : ℤ × ℤ × ℤ) : List ℤ :=
  ((a.set di t.1).set (di+1) t.2.1).set (di+2) t.2.2

/-- Ascending write loop: pixels `start, start+1, …, start+n-1`. -/
noncomputable def processLoopAux (f : ℕ → ℤ × ℤ × ℤ) : ℕ → ℕ → List ℤ → List ℤ
  | _, 0, a => a
  | start, n+1, a => processLoopAux f (start+1) n (writeTriple a (start*3) (f start))

/-- `processPixels` writing into a given destination buffer. -/
noncomputable def processPixelsWithDest (img : ImageDataM) (boost : ℝ) (input : LookInput)
    (mode : PQEncodeMode) (dest : List ℤ) : List ℤ :=
  processLoopAux (processPixelsTriple img boost input mode) 0 (img.width * img.height) dest

/-- `processPixels`: use the caller's buffer only when its length is
exactly `width*height*3`, otherwise allocate a fresh zero buffer. -/
noncomputable def processPixels (img : ImageDataM) (boost : ℝ) (input : LookInput)
    (mode : PQEncodeMode) (outBuffer : Option (List ℤ)) : List ℤ :=
  let outLen := img.width * img.height * 3
  let dest := match outBuffer with
    | some b => if b.length = outLen then b else List.replicate outLen 0
    | none => List.replicate outLen 0
  processPixelsWithDest img boost input mode dest

/-! ### `pq.ts`: the preview pipeline -/

/-- Store to a `Uint8ClampedArray` slot. -/
noncomputable def u8Store (v : ℝ) : ℤ := max 0 (min 255 (jsRound v))

/-- One iteration of the `processPreviewPixels` loop: the shared look
stages at the fixed SDR gain, non-negativity clamp, the inverse SDR tone
map, the inverse BT.2020→sRGB matrix, the sRGB OETF and 8-bit
quantization (alpha forced to 255). -/
noncomputable def previewPixelQuad (look : LookControls) (knee : ℝ)
    (rB gB bB : ℕ) : ℤ × ℤ × ℤ × ℤ :=
  let r := gammaLUTValue look.gamma rB
  let g := gammaLUTValue look.gamma gB
  let b := gammaLUTValue look.gamma bB
  let gain := SDR_TO_PQ_SCALE
  let p0 : RGB := ⟨(0.6274039 * r + 0.3292830 * g + 0.0433131 * b) * gain,
                   (0.0690973 * r + 0.9195404 * g + 0.0113623 * b) * gain,
                   (0.0163914 * r + 0.0880133 * g + 0.8955953 * b) * gain⟩
  let y0 := lumaY p0
  let p1 := applySat look.saturation y0 p0
  let p2 := applyVib (look.vibrance - 1) y0 p1
  let p3 := applyContrastLift look.contrast look.shadowLift p2
  let p4 := applyShoulder knee p3
  let p5 : RGB := ⟨max 0 p4.r, max 0 p4.g, max 0 p4.b⟩
  let y1 := lumaY p5
  let p6 := if 0 < y1 then scaleRGB p5 (previewToneMap y1 / y1) else p5
  let rs := clamp (1.6604910 * p6.r + -0.5876411 * p6.g + -0.0728499 * p6.b) 0 1
  let gs := clamp (-0.1245505 * p6.r + 1.1328999 * p6.g + -0.0083494 * p6.b) 0 1
  let bs := clamp (-0.0181508 * p6.r + -0.1005789 * p6.g + 1.1187297 * p6.b) 0 1
  (u8Store (clamp (srgbOETF rs) 0 1 * 255),
   u8Store (clamp (srgbOETF gs) 0 1 * 255),
   u8Store (clamp (srgbOETF bs) 0 1 * 255),
   255)

/-- Write a quad at positions `4i` … `4i+3`. -/
def writeQuad (a : List ℤ) (di : ℕ) (t : ℤ × ℤ × ℤ × ℤ) : List ℤ :=
  (((a.set di t.1).set (di+1) t.2.1).set (di+2) t.2.2.1).set (di+3) t.2.2.2

noncomputable def previewLoopAux (f : ℕ → ℤ × ℤ × ℤ × ℤ) : ℕ → ℕ → List ℤ → List ℤ
  | _, 0, a => a
  | start, n+1, a => previewLoopAux f (start+1) n (writeQuad a (start*4) (f start))

/-- Pixel `i` of the preview transform. -/
noncomputable def processPreviewQuad (img : ImageDataM) (input : LookInput) (i : ℕ) :
    ℤ × ℤ × ℤ × ℤ :=
  let look := normalizeLookControls input
  previewPixelQuad look (shoulderKneeFor SDR_TO_PQ_SCALE look.highlightRollOff)
    (img.data.getD (i*4) 0) (img.data.getD (i*4+1) 0) (img.data.getD (i*4+2) 0)

noncomputable def processPreviewWithDest (img : ImageDataM) (input : LookInput)
    (dest : List ℤ) : List ℤ :=
  previewLoopAux (processPreviewQuad img input) 0 (img.width * img.height) dest

/-- `processPreviewPixels`: the `boost` argument is accepted and then
discarded (`void boost`) — the body runs at the fixed SDR gain. -/
noncomputable def processPreviewPixels (img : ImageDataM) (boost : ℝ) (input : LookInput)
    (outBuffer : Option (List ℤ)) : List ℤ :=
  let outLen := img.width * img.height * 4
  let dest := match outBuffer with
    | some b => if b.length = outLen then b else List.replicate outLen 0
    | none => List.replicate outLen 0
  processPreviewWithDest img input dest

/-! ### Analytic facts about the PQ transfer function and its LUT -/

/-- Proof-side abbreviation for the rational kernel of `pqOETF`. -/
noncomputable def pqRatio (x : ℝ) : ℝ := (pqC1 + pqC2 * x) / (1 + pqC3 * x)

lemma pqOETF_eq_ratio (L : ℝ) : pqOETF L = pqRatio (L ^ pqM1) ^ pqM2 := rfl

lemma pqC1_pos : (0:ℝ) < pqC1 := by unfold pqC1; norm_num

lemma pqC2_pos : (0:ℝ) < pqC2 := by unfold pqC2; norm_num

lemma pqC3_pos : (0:ℝ) < pqC3 := by unfold pqC3; norm_num

lemma pqM1_pos : (0:ℝ) < pqM1 := by unfold pqM1; norm_num

lemma pqM2_pos : (0:ℝ) < pqM2 := by unfold pqM2; norm_num

lemma pqRatio_den_pos {x : ℝ} (hx : 0 ≤ x) : (0:ℝ) < 1 + pqC3 * x := by
  have := pqC3_pos
  nlinarith

lemma pqRatio_nonneg {x : ℝ} (hx : 0 ≤ x) : 0 ≤ pqRatio x := by
  unfold pqRatio
  have h1 := pqRatio_den_pos hx
  have h2 : (0:ℝ) ≤ pqC1 + pqC2 * x := by
    have := pqC1_pos; have := pqC2_pos; nlinarith
  positivity

lemma pqRatio_le_one {x : ℝ} (hx : 0 ≤ x) (hx1 : x ≤ 1) : pqRatio x ≤ 1 := by
  unfold pqRatio
  rw [div_le_one (pqRatio_den_pos hx)]
  unfold pqC1 pqC2 pqC3
  nlinarith

lemma pqRatio_mono {x y : ℝ} (hx : 0 ≤ x) (hxy : x ≤ y) : pqRatio x ≤ pqRatio y := by
  unfold pqRatio
  rw [div_le_div_iff₀ (pqRatio_den_pos hx) (pqRatio_den_pos (hx.trans hxy))]
  unfold pqC1 pqC2 pqC3
  nlinarith

lemma pqOETF_nonneg {L : ℝ} (hL : 0 ≤ L) : 0 ≤ pqOETF L := by
  rw [pqOETF_eq_ratio]
  exact Real.rpow_nonneg (pqRatio_nonneg (Real.rpow_nonneg hL _)) _

lemma pqOETF_le_one {L : ℝ} (hL : 0 ≤ L) (hL1 : L ≤ 1) : pqOETF L ≤ 1 := by
  rw [pqOETF_eq_ratio]
  have hx : (0:ℝ) ≤ L ^ pqM1 := Real.rpow_nonneg hL _
  exact Real.rpow_le_one (pqRatio_nonneg hx)
    (pqRatio_le_one hx (Real.rpow_le_one hL hL1 pqM1_pos.le)) pqM2_pos.le

lemma pqOETF_mono {a b : ℝ} (ha : 0 ≤ a) (hab : a ≤ b) : pqOETF a ≤ pqOETF b := by
  rw [pqOETF_eq_ratio, pqOETF_eq_ratio]
  have hx : (0:ℝ) ≤ a ^ pqM1 := Real.rpow_nonneg ha _
  exact Real.rpow_le_rpow (pqRatio_nonneg hx)
    (pqRatio_mono hx (Real.rpow_le_rpow ha hab pqM1_pos.le)) pqM2_pos.le

lemma pqOETF_zero : pqOETF 0 = pqC1 ^ pqM2 := by
  rw [pqOETF_eq_ratio, Real.zero_rpow pqM1_pos.ne']
  unfold pqRatio
  norm_num

lemma pqOETF_one : pqOETF 1 = 1 := by
  rw [pqOETF_eq_ratio, Real.one_rpow]
  have h : pqRatio 1 = 1 := by unfold pqRatio pqC1 pqC2 pqC3; norm_num
  rw [h, Real.one_rpow]

lemma pqLUT_nonneg (i : ℕ) : 0 ≤ pqLUT i := pqOETF_nonneg (by positivity)

lemma pqLUT_mono {i j : ℕ} (h : i ≤ j) : pqLUT i ≤ pqLUT j :=
  pqOETF_mono (by positivity)
    ((div_le_div_iff_of_pos_right (by norm_num)).mpr (by exact_mod_cast h))

lemma pqLUT_le_one {i : ℕ} (h : i ≤ 32768) : pqLUT i ≤ 1 := by
  apply pqOETF_le_one (by positivity)
  rw [div_le_one (by norm_num)]
  exact_mod_cast h

lemma pqOETFFast_mid {L : ℝ} (h0 : 0 < L) (h1 : L < 1) :
    pqOETFFast L = pqLUT (⌊L * 32768⌋).toNat +
      (pqLUT ((⌊L * 32768⌋).toNat + 1) - pqLUT (⌊L * 32768⌋).toNat) *
        (L * 32768 - ((⌊L * 32768⌋).toNat : ℝ)) := by
  unfold pqOETFFast
  rw [if_neg (by linarith), if_neg (by linarith)]

lemma floor_toNat_cast {x : ℝ} (hx : 0 ≤ x) : ((⌊x⌋.toNat : ℝ)) = ((⌊x⌋ : ℤ) : ℝ) := by
  have h : (0:ℤ) ≤ ⌊x⌋ := Int.floor_nonneg.mpr hx
  exact_mod_cast congrArg (fun z : ℤ => (z : ℝ)) (Int.toNat_of_nonneg h)

lemma floor_toNat_le {x : ℝ} (hx : 0 ≤ x) : ((⌊x⌋.toNat : ℝ)) ≤ x := by
  rw [floor_toNat_cast hx]
  exact Int.floor_le x

lemma lt_floor_toNat_add_one {x : ℝ} (hx : 0 ≤ x) : x < (⌊x⌋.toNat : ℝ) + 1 := by
  rw [floor_toNat_cast hx]
  exact Int.lt_floor_add_one x

/-- At an interior table knot the interpolation degenerates to the table
value, i.e. to the exact `pqOETF` of the knot. -/
lemma pqOETFFast_knot {k : ℕ} (hk0 : 0 < k) (hk : k < 32768) :
    pqOETFFast ((k:ℝ)/32768) = pqLUT k := by
  have hk0' : (0:ℝ) < (k:ℝ) := by exact_mod_cast hk0
  have hL0 : (0:ℝ) < (k:ℝ)/32768 := by positivity
  have hL1 : (k:ℝ)/32768 < 1 := by
    rw [div_lt_one (by norm_num)]
    exact_mod_cast hk
  rw [pqOETFFast_mid hL0 hL1]
  have hx : (k:ℝ)/32768 * 32768 = (k:ℝ) := by field_simp
  rw [hx, Int.floor_natCast, Int.toNat_natCast, sub_self, mul_zero, add_zero]

lemma pqOETFFast_nonneg (L : ℝ) : 0 ≤ pqOETFFast L := by
  by_cases h0 : L ≤ 0
  · unfold pqOETFFast
    rw [if_pos h0]
  by_cases h1 : (1:ℝ) ≤ L
  · unfold pqOETFFast
    rw [if_neg h0, if_pos h1]
    norm_num
  push_neg at h0 h1
  rw [pqOETFFast_mid h0 h1]
  have hx : (0:ℝ) ≤ L * 32768 := by nlinarith
  have ht0 : (0:ℝ) ≤ L * 32768 - ((⌊L * 32768⌋).toNat : ℝ) :=
    sub_nonneg.mpr (floor_toNat_le hx)
  have hA := pqLUT_nonneg (⌊L * 32768⌋).toNat
  have hAB := pqLUT_mono (Nat.le_succ (⌊L * 32768⌋).toNat)
  nlinarith

lemma pqOETFFast_le_one (L : ℝ) : pqOETFFast L ≤ 1 := by
  by_cases h0 : L ≤ 0
  · unfold pqOETFFast
    rw [if_pos h0]
    norm_num
  by_cases h1 : (1:ℝ) ≤ L
  · unfold pqOETFFast
    rw [if_neg h0, if_pos h1]
  push_neg at h0 h1
  rw [pqOETFFast_mid h0 h1]
  have hx : (0:ℝ) ≤ L * 32768 := by nlinarith
  have ht0 : (0:ℝ) ≤ L * 32768 - ((⌊L * 32768⌋).toNat : ℝ) :=
    sub_nonneg.mpr (floor_toNat_le hx)
  have ht1 : L * 32768 - ((⌊L * 32768⌋).toNat : ℝ) < 1 := by
    have := lt_floor_toNat_add_one hx
    linarith
  have hn : (⌊L * 32768⌋).toNat + 1 ≤ 32768 := by
    have hlt : ⌊L * 32768⌋ < 32768 := Int.floor_lt.mpr (by push_cast; nlinarith)
    omega
  have hA := pqLUT_le_one (le_of_lt (Nat.lt_of_succ_le hn))
  have hB := pqLUT_le_one hn
  have hAB := pqLUT_mono (Nat.le_succ (⌊L * 32768⌋).toNat)
  nlinarith

/-- The interpolated LUT encoder is monotone. -/
lemma pqOETFFast_mono {a b : ℝ} (hab : a ≤ b) : pqOETFFast a ≤ pqOETFFast b := by
  by_cases ha0 : a ≤ 0
  · have : pqOETFFast a = 0 := by unfold pqOETFFast; rw [if_pos ha0]
    rw [this]
    exact pqOETFFast_nonneg b
  push_neg at ha0
  by_cases hb1 : (1:ℝ) ≤ b
  · have : pqOETFFast b = 1 := by
      unfold pqOETFFast
      rw [if_neg (by linarith), if_pos hb1]
    rw [this]
    exact pqOETFFast_le_one a
  push_neg at hb1
  have ha1 : a < 1 := lt_of_le_of_lt hab hb1
  have hb0 : (0:ℝ) < b := lt_of_lt_of_le ha0 hab
  rw [pqOETFFast_mid ha0 ha1, pqOETFFast_mid hb0 hb1]
  have hxa : (0:ℝ) ≤ a * 32768 := by nlinarith
  have hxb : (0:ℝ) ≤ b * 32768 := by nlinarith
  have hxab : a * 32768 ≤ b * 32768 := by nlinarith
  have hnab : (⌊a * 32768⌋).toNat ≤ (⌊b * 32768⌋).toNat :=
    Int.toNat_le_toNat (Int.floor_le_floor hxab)
  have hta0 : (0:ℝ) ≤ a * 32768 - ((⌊a * 32768⌋).toNat : ℝ) :=
    sub_nonneg.mpr (floor_toNat_le hxa)
  have hta1 : a * 32768 - ((⌊a * 32768⌋).toNat : ℝ) < 1 := by
    have := lt_floor_toNat_add_one hxa
    linarith
  have htb0 : (0:ℝ) ≤ b * 32768 - ((⌊b * 32768⌋).toNat : ℝ) :=
    sub_nonneg.mpr (floor_toNat_le hxb)
  rcases Nat.lt_or_ge (⌊a * 32768⌋).toNat (⌊b * 32768⌋).toNat with hlt | hge
  · -- different cells: chain through the table values between them
    have h1 : pqLUT (⌊a * 32768⌋).toNat +
        (pqLUT ((⌊a * 32768⌋).toNat + 1) - pqLUT (⌊a * 32768⌋).toNat) *
          (a * 32768 - ((⌊a * 32768⌋).toNat : ℝ)) ≤ pqLUT ((⌊a * 32768⌋).toNat + 1) := by
      have hAB := pqLUT_mono (Nat.le_succ (⌊a * 32768⌋).toNat)
      nlinarith
    have h2 : pqLUT ((⌊a * 32768⌋).toNat + 1) ≤ pqLUT (⌊b * 32768⌋).toNat :=
      pqLUT_mono hlt
    have h3 : pqLUT (⌊b * 32768⌋).toNat ≤ pqLUT (⌊b * 32768⌋).toNat +
        (pqLUT ((⌊b * 32768⌋).toNat + 1) - pqLUT (⌊b * 32768⌋).toNat) *
          (b * 32768 - ((⌊b * 32768⌋).toNat : ℝ)) := by
      have hAB := pqLUT_mono (Nat.le_succ (⌊b * 32768⌋).toNat)
      nlinarith
    linarith
  · -- same cell: interpolation with a common nonnegative slope
    have heq : (⌊b * 32768⌋).toNat = (⌊a * 32768⌋).toNat := le_antisymm hge hnab
    rw [heq]
    have hAB := pqLUT_mono (Nat.le_succ (⌊a * 32768⌋).toNat)
    nlinarith

lemma pqOETFFast_le_of_le_knot {L : ℝ} {k : ℕ} (hk0 : 0 < k) (hk : k < 32768)
    (h : L ≤ (k:ℝ)/32768) : pqOETFFast L ≤ pqLUT k :=
  le_of_le_of_eq (pqOETFFast_mono h) (pqOETFFast_knot hk0 hk)

lemma knot_le_pqOETFFast {L : ℝ} {k : ℕ} (hk0 : 0 < k) (hk : k < 32768)
    (h : (k:ℝ)/32768 ≤ L) : pqLUT k ≤ pqOETFFast L :=
  le_of_eq_of_le (pqOETFFast_knot hk0 hk).symm (pqOETFFast_mono h)

/-! ### Certified numeric bounds on concrete PQ values -/

/-- `pqOETF 0 = c1 ^ m2` is far below half of one 16-bit code value. -/
lemma pqOETF_zero_small : pqOETF 0 ≤ 7/1000000 := by
  rw [pqOETF_zero]
  have h : pqC1 = (3424:ℝ)/4096 := by unfold pqC1; norm_num
  rw [h, pqM2_eq]
  apply rpow_ratio_le_of_pow_le 2523 32 (by norm_num) (by norm_num) (by norm_num)
  rw [div_pow, div_pow, div_le_div_iff₀ (by positivity) (by positivity)]
  norm_num

/-- Upper-bound skeleton: an upper bound `s` on the inner rational power
and an integer-power certificate on `pqRatio s` bound `pqOETF L`. -/
lemma pqOETF_le_of {L s B : ℝ} (hL : 0 ≤ L) (hs0 : 0 ≤ s) (hB0 : 0 ≤ B)
    (hs : L ^ pqM1 ≤ s) (h2 : pqRatio s ^ (2523:ℕ) ≤ B ^ (32:ℕ)) : pqOETF L ≤ B := by
  rw [pqOETF_eq_ratio]
  have hx0 : (0:ℝ) ≤ L ^ pqM1 := Real.rpow_nonneg hL _
  have h1 : pqRatio (L ^ pqM1) ≤ pqRatio s := pqRatio_mono hx0 hs
  have h0 : (0:ℝ) ≤ pqRatio (L ^ pqM1) := pqRatio_nonneg hx0
  calc pqRatio (L ^ pqM1) ^ pqM2 ≤ pqRatio s ^ pqM2 :=
        Real.rpow_le_rpow h0 h1 pqM2_pos.le
  _ ≤ B := by
      rw [pqM2_eq]
      exact rpow_ratio_le_of_pow_le 2523 32 (pqRatio_nonneg hs0) hB0 (by norm_num) h2

/-- Lower-bound skeleton, dual to `pqOETF_le_of`. -/
lemma le_pqOETF_of {L s lb : ℝ} (hL : 0 ≤ L) (hs0 : 0 ≤ s) (hlb : 0 ≤ lb)
    (hs : s ≤ L ^ pqM1) (h2 : lb ^ (32:ℕ) ≤ pqRatio s ^ (2523:ℕ)) : lb ≤ pqOETF L := by
  rw [pqOETF_eq_ratio]
  have hx0 : (0:ℝ) ≤ L ^ pqM1 := Real.rpow_nonneg hL _
  have h1 : pqRatio s ≤ pqRatio (L ^ pqM1) := pqRatio_mono hs0 hs
  calc lb ≤ pqRatio s ^ pqM2 := by
        rw [pqM2_eq]
        exact le_rpow_ratio_of_pow_le 2523 32 (pqRatio_nonneg hs0) hlb (by norm_num) h2
  _ ≤ pqRatio (L ^ pqM1) ^ pqM2 :=
        Real.rpow_le_rpow (pqRatio_nonneg hs0) h1 pqM2_pos.le

/-- `pqLUT 1 = pqOETF (1/32768) ≤ 1/8`. -/
lemma pqLUT_one_le : pqLUT 1 ≤ 1/8 := by
  unfold pqLUT
  push_cast
  apply pqOETF_le_of (s := (49:ℝ)/256) (by norm_num) (by norm_num) (by norm_num)
  · rw [pqM1_eq]
    apply rpow_ratio_le_of_pow_le 1305 8192 (by norm_num) (by norm_num) (by norm_num)
    rw [div_pow, div_pow, div_le_div_iff₀ (by positivity) (by positivity)]
    norm_num
  · have h : pqRatio ((49:ℝ)/256) = (16181:ℝ)/16664 := by
      unfold pqRatio pqC1 pqC2 pqC3
      norm_num
    rw [h, div_pow, div_pow, div_le_div_iff₀ (by positivity) (by positivity)]
    norm_num

/-- `pqOETF (1/65536)` is at least `9/128` — the exact curve is already
well clear of the first-cell chord there. -/
lemma le_pqOETF_inv65536 : (9:ℝ)/128 ≤ pqOETF (1/65536) := by
  apply le_pqOETF_of (s := (699:ℝ)/4096) (by norm_num) (by norm_num) (by norm_num)
  · rw [pqM1_eq]
    apply le_rpow_ratio_of_pow_le 1305 8192 (by norm_num) (by norm_num) (by norm_num)
    rw [div_pow, div_pow, div_le_div_iff₀ (by positivity) (by positivity)]
    norm_num
  · have h : pqRatio ((699:ℝ)/4096) = (2124959:ℝ)/2196296 := by
      unfold pqRatio pqC1 pqC2 pqC3
      norm_num
    rw [h, div_pow, div_pow, div_le_div_iff₀ (by positivity) (by positivity)]
    norm_num

/-- `pqLUT 1474 = pqOETF (1474/32768) ≥ 1/2`. -/
lemma half_le_pqLUT_1474 : (1:ℝ)/2 ≤ pqLUT 1474 := by
  unfold pqLUT
  push_cast
  apply le_pqOETF_of (s := (1:ℝ)/2) (by norm_num) (by norm_num) (by norm_num)
  · rw [pqM1_eq]
    apply le_rpow_ratio_of_pow_le 1305 8192 (by norm_num) (by norm_num) (by norm_num)
    rw [div_pow, div_pow, div_le_div_iff₀ (by positivity) (by positivity)]
    norm_num
  · have h : pqRatio ((1:ℝ)/2) = (2627:ℝ)/2648 := by
      unfold pqRatio pqC1 pqC2 pqC3
      norm_num
    rw [h, div_pow, div_pow, div_le_div_iff₀ (by positivity) (by positivity)]
    norm_num

/-- `pqLUT 32307 = pqOETF (32307/32768) ≤ 9999/10000`, strictly below the
top code value. -/
lemma pqLUT_32307_le : pqLUT 32307 ≤ (9999:ℝ)/10000 := by
  unfold pqLUT
  push_cast
  apply pqOETF_le_of (s := (511:ℝ)/512) (by norm_num) (by norm_num) (by norm_num)
  · rw [pqM1_eq]
    apply rpow_ratio_le_of_pow_le 1305 8192 (by norm_num) (by norm_num) (by norm_num)
    rw [div_pow, div_pow, div_le_div_iff₀ (by positivity) (by positivity)]
    norm_num
  · have h : pqRatio ((511:ℝ)/512) = (1287827:ℝ)/1287848 := by
      unfold pqRatio pqC1 pqC2 pqC3
      norm_num
    rw [h, div_pow, div_pow, div_le_div_iff₀ (by positivity) (by positivity)]
    norm_num

/-! ### Facts about the sRGB EOTF, the gamma LUT, and quantization -/

lemma srgbEOTF_zero : srgbEOTF 0 = 0 := by
  unfold srgbEOTF
  rw [if_pos (by norm_num)]
  norm_num

lemma srgbEOTF_nonneg {v : ℝ} (hv : 0 ≤ v) : 0 ≤ srgbEOTF v := by
  unfold srgbEOTF
  split_ifs with h
  · positivity
  · positivity

lemma srgbEOTF_le_one {v : ℝ} (hv0 : 0 ≤ v) (hv1 : v ≤ 1) : srgbEOTF v ≤ 1 := by
  unfold srgbEOTF
  split_ifs with h
  · rw [div_le_one (by norm_num)]
    linarith
  · apply Real.rpow_le_one (by positivity) _ (by norm_num)
    rw [div_le_one (by norm_num)]
    linarith

lemma srgbEOTF_one : srgbEOTF 1 = 1 := by
  unfold srgbEOTF
  rw [if_neg (by norm_num), show ((1:ℝ) + 0.055) / 1.055 = 1 by norm_num, Real.one_rpow]

lemma jsRound_intCast (z : ℤ) : jsRound ((z:ℝ)) = z :=
  jsRound_eq (by norm_num) (by norm_num)

lemma quantizeGamma_one : quantizeGamma 1 = 1 := by
  unfold quantizeGamma
  rw [show (1:ℝ) * 1000 = ((1000:ℤ):ℝ) by norm_num, jsRound_intCast]
  norm_num

lemma quantizeGamma_pos {g : ℝ} (hg : 0.1 ≤ g) : 0 < quantizeGamma g := by
  unfold quantizeGamma
  have h1 : (100:ℤ) ≤ jsRound (g * 1000) := by
    rw [show (100:ℤ) = jsRound ((100:ℤ):ℝ) from (jsRound_intCast 100).symm]
    exact jsRound_mono (by push_cast; linarith)
  have h2 : (100:ℝ) ≤ (jsRound (g * 1000) : ℝ) := by exact_mod_cast h1
  positivity

lemma gammaLUTValue_at_one (v : ℕ) : gammaLUTValue 1 v = srgbEOTF ((v:ℝ)/255) := by
  unfold gammaLUTValue
  rw [quantizeGamma_one]
  simp

lemma gammaLUTValue_black {γ : ℝ} (hγ : 0.1 ≤ γ) : gammaLUTValue γ 0 = 0 := by
  have hb : srgbEOTF (((0:ℕ):ℝ)/255) = 0 := by
    rw [show (((0:ℕ):ℝ)/255) = 0 by norm_num, srgbEOTF_zero]
  simp only [gammaLUTValue, hb]
  split_ifs with h
  · exact Real.zero_rpow (quantizeGamma_pos hγ).ne'
  · rfl

lemma gammaLUTValue_nonneg (γ : ℝ) (v : ℕ) : 0 ≤ gammaLUTValue γ v := by
  have hb : 0 ≤ srgbEOTF ((v:ℝ)/255) := srgbEOTF_nonneg (by positivity)
  simp only [gammaLUTValue]
  split_ifs with h
  · exact Real.rpow_nonneg hb _
  · exact hb

lemma gammaLUTValue_one_le {v : ℕ} (hv : v ≤ 255) : gammaLUTValue 1 v ≤ 1 := by
  rw [gammaLUTValue_at_one]
  apply srgbEOTF_le_one (by positivity)
  rw [div_le_one (by norm_num)]
  exact_mod_cast hv

lemma jsRound_nonneg {x : ℝ} (hx : 0 ≤ x) : 0 ≤ jsRound x :=
  Int.floor_nonneg.mpr (by linarith)

lemma jsRound_zero : jsRound 0 = 0 := jsRound_eq (by norm_num) (by norm_num)

/-- On `[0,1]` the `Uint16Array` wrap is the identity on the rounded
value. -/
lemma u16Store_eq_jsRound {v : ℝ} (h0 : 0 ≤ v) (h1 : v ≤ 1) :
    u16Store v = jsRound (v * 65535) := by
  unfold u16Store
  have hle : jsRound (v * 65535) ≤ 65535 := by
    rw [show (65535:ℤ) = jsRound ((65535:ℤ):ℝ) from (jsRound_intCast _).symm]
    exact jsRound_mono (by push_cast; nlinarith)
  exact Int.emod_eq_of_lt (jsRound_nonneg (by nlinarith)) (by omega)

lemma u16Store_zero : u16Store 0 = 0 := by
  rw [u16Store_eq_jsRound le_rfl (by norm_num), zero_mul, jsRound_zero]

lemma u16Store_mono {a b : ℝ} (ha0 : 0 ≤ a) (hab : a ≤ b) (hb1 : b ≤ 1) :
    u16Store a ≤ u16Store b := by
  rw [u16Store_eq_jsRound ha0 (hab.trans hb1), u16Store_eq_jsRound (ha0.trans hab) hb1]
  exact jsRound_mono (by nlinarith)

lemma pqEncode_nonneg (mode : PQEncodeMode) {L : ℝ} (hL : 0 ≤ L) :
    0 ≤ pqEncode mode L := by
  cases mode
  · exact pqOETFFast_nonneg L
  · exact pqOETF_nonneg hL

lemma pqEncode_le_one (mode : PQEncodeMode) {L : ℝ} (h0 : 0 ≤ L) (h1 : L ≤ 1) :
    pqEncode mode L ≤ 1 := by
  cases mode
  · exact pqOETFFast_le_one L
  · exact pqOETF_le_one h0 h1

lemma pqEncode_mono (mode : PQEncodeMode) {a b : ℝ} (h0 : 0 ≤ a) (hab : a ≤ b) :
    pqEncode mode a ≤ pqEncode mode b := by
  cases mode
  · exact pqOETFFast_mono hab
  · exact pqOETF_mono h0 hab

/-- Both PQ encoders quantize a zero channel to the zero code value (the
exact polynomial leaves the tiny residue `c1 ^ m2`, which rounds to 0). -/
lemma u16Store_pqEncode_zero (mode : PQEncodeMode) : u16Store (pqEncode mode 0) = 0 := by
  cases mode
  · have h : pqEncode PQEncodeMode.lut 0 = 0 := by
      show pqOETFFast 0 = 0
      unfold pqOETFFast
      rw [if_pos le_rfl]
    rw [h, u16Store_zero]
  · show u16Store (pqOETF 0) = 0
    have h0 : 0 ≤ pqOETF 0 := pqOETF_nonneg le_rfl
    have h1 : pqOETF 0 ≤ 7/1000000 := pqOETF_zero_small
    rw [u16Store_eq_jsRound h0 (by linarith)]
    exact jsRound_eq (by nlinarith) (by push_cast; nlinarith)

/-! ### Output buffer writes -/

lemma get?_set_cond (l : List ℤ) (m j : ℕ) (v : ℤ) :
    (l.set m v)[j]? = if m = j ∧ m < l.length then some v else l[j]? := by
  rw [List.getElem?_set]
  by_cases h1 : m = j
  · subst h1
    by_cases h2 : m < l.length
    · simp [h2]
    · rw [if_pos rfl, if_neg h2, if_neg (by tauto)]
      exact (List.getElem?_eq_none (by omega)).symm
  · rw [if_neg h1, if_neg (by tauto)]

/-- Component `k` of an output triple. -/
def tripleComponent (t : ℤ × ℤ × ℤ) : ℕ → ℤ
  | 0 => t.1
  | 1 => t.2.1
  | _ => t.2.2

/-- Component `k` of a preview quad. -/
def quadComponent (t : ℤ × ℤ × ℤ × ℤ) : ℕ → ℤ
  | 0 => t.1
  | 1 => t.2.1
  | 2 => t.2.2.1
  | _ => t.2.2.2

lemma writeTriple_length (a : List ℤ) (di : ℕ) (t : ℤ × ℤ × ℤ) :
    (writeTriple a di t).length = a.length := by
  unfold writeTriple
  simp [List.length_set]

lemma get?_writeTriple_out (a : List ℤ) (di : ℕ) (t : ℤ × ℤ × ℤ) {j : ℕ}
    (h : j < di ∨ di + 3 ≤ j) : (writeTriple a di t)[j]? = a[j]? := by
  unfold writeTriple
  rw [get?_set_cond, if_neg (by simp only [List.length_set]; omega),
    get?_set_cond, if_neg (by simp only [List.length_set]; omega),
    get?_set_cond, if_neg (by omega)]

lemma get?_writeTriple_hit (a : List ℤ) (di : ℕ) (t : ℤ × ℤ × ℤ) {k : ℕ} (hk : k < 3)
    (h : di + 2 < a.length) : (writeTriple a di t)[di + k]? = some (tripleComponent t k) := by
  unfold writeTriple
  interval_cases k
  · rw [get?_set_cond, if_neg (by simp only [List.length_set]; omega),
      get?_set_cond, if_neg (by simp only [List.length_set]; omega),
      get?_set_cond, if_pos (And.intro (by omega) (by omega))]
    rfl
  · rw [get?_set_cond, if_neg (by simp only [List.length_set]; omega),
      get?_set_cond, if_pos (And.intro (by omega) (by first | omega | (simp only [List.length_set]; omega)))]
    rfl
  · rw [get?_set_cond, if_pos (And.intro (by omega) (by first | omega | (simp only [List.length_set]; omega)))]
    rfl

lemma writeQuad_length (a : List ℤ) (di : ℕ) (t : ℤ × ℤ × ℤ × ℤ) :
    (writeQuad a di t).length = a.length := by
  unfold writeQuad
  simp [List.length_set]

lemma get?_writeQuad_out (a : List ℤ) (di : ℕ) (t : ℤ × ℤ × ℤ × ℤ) {j : ℕ}
    (h : j < di ∨ di + 4 ≤ j) : (writeQuad a di t)[j]? = a[j]? := by
  unfold writeQuad
  rw [get?_set_cond, if_neg (by simp only [List.length_set]; omega),
    get?_set_cond, if_neg (by simp only [List.length_set]; omega),
    get?_set_cond, if_neg (by simp only [List.length_set]; omega),
    get?_set_cond, if_neg (by omega)]

lemma get?_writeQuad_hit (a : List ℤ) (di : ℕ) (t : ℤ × ℤ × ℤ × ℤ) {k : ℕ} (hk : k < 4)
    (h : di + 3 < a.length) : (writeQuad a di t)[di + k]? = some (quadComponent t k) := by
  unfold writeQuad
  interval_cases k
  · rw [get?_set_cond, if_neg (by simp only [List.length_set]; omega),
      get?_set_cond, if_neg (by simp only [List.length_set]; omega),
      get?_set_cond, if_neg (by simp only [List.length_set]; omega),
      get?_set_cond, if_pos (And.intro (by omega) (by omega))]
    rfl
  · rw [get?_set_cond, if_neg (by simp only [List.length_set]; omega),
      get?_set_cond, if_neg (by simp only [List.length_set]; omega),
      get?_set_cond, if_pos (And.intro (by omega) (by first | omega | (simp only [List.length_set]; omega)))]
    rfl
  · rw [get?_set_cond, if_neg (by simp only [List.length_set]; omega),
      get?_set_cond, if_pos (And.intro (by omega) (by first | omega | (simp only [List.length_set]; omega)))]
    rfl
  · rw [get?_set_cond, if_pos (And.intro (by omega) (by first | omega | (simp only [List.length_set]; omega)))]
    rfl

lemma processLoopAux_length (f : ℕ → ℤ × ℤ × ℤ) (n : ℕ) : ∀ (start : ℕ) (a : List ℤ),
    (processLoopAux f start n a).length = a.length := by
  induction n with
  | zero => intro start a; rfl
  | succ n ih =>
      intro start a
      simp only [processLoopAux]
      rw [ih, writeTriple_length]

lemma processLoopAux_get_lt (f : ℕ → ℤ × ℤ × ℤ) (n : ℕ) : ∀ (start : ℕ) (a : List ℤ)
    (j : ℕ), j < start * 3 → (processLoopAux f start n a)[j]? = a[j]? := by
  induction n with
  | zero => intro start a j _; rfl
  | succ n ih =>
      intro start a j hj
      simp only [processLoopAux]
      rw [ih (start+1) _ j (by omega)]
      exact get?_writeTriple_out _ _ _ (Or.inl (by omega))

lemma processLoopAux_get_hit (f : ℕ → ℤ × ℤ × ℤ) (n : ℕ) : ∀ (start : ℕ) (a : List ℤ),
    a.length = (start + n) * 3 → ∀ i k : ℕ, i < n → k < 3 →
    (processLoopAux f start n a)[(start + i) * 3 + k]? =
      some (tripleComponent (f (start + i)) k) := by
  induction n with
  | zero => intro start a _ i k hi _; omega
  | succ n ih =>
      intro start a ha i k hi hk
      simp only [processLoopAux]
      cases i with
      | zero =>
          have hidx : (start + 0) * 3 + k = start * 3 + k := by ring
          rw [hidx]
          rw [processLoopAux_get_lt f n (start+1) _ _ (by omega)]
          have hlen : start * 3 + 2 < a.length := by omega
          have := get?_writeTriple_hit a (start * 3) (f start) hk hlen
          simpa using this
      | succ i' =>
          have hlen : (writeTriple a (start * 3) (f start)).length = ((start + 1) + n) * 3 := by
            rw [writeTriple_length]; omega
          have hidx : (start + (i' + 1)) * 3 + k = ((start + 1) + i') * 3 + k := by ring
          have harg : start + (i' + 1) = (start + 1) + i' := by ring
          rw [hidx, harg]
          exact ih (start+1) _ hlen i' k (by omega) hk

lemma previewLoopAux_length (f : ℕ → ℤ × ℤ × ℤ × ℤ) (n : ℕ) : ∀ (start : ℕ) (a : List ℤ),
    (previewLoopAux f start n a).length = a.length := by
  induction n with
  | zero => intro start a; rfl
  | succ n ih =>
      intro start a
      simp only [previewLoopAux]
      rw [ih, writeQuad_length]

lemma previewLoopAux_get_lt (f : ℕ → ℤ × ℤ × ℤ × ℤ) (n : ℕ) : ∀ (start : ℕ) (a : List ℤ)
    (j : ℕ), j < start * 4 → (previewLoopAux f start n a)[j]? = a[j]? := by
  induction n with
  | zero => intro start a j _; rfl
  | succ n ih =>
      intro start a j hj
      simp only [previewLoopAux]
      rw [ih (start+1) _ j (by omega)]
      exact get?_writeQuad_out _ _ _ (Or.inl (by omega))

lemma previewLoopAux_get_hit (f : ℕ → ℤ × ℤ × ℤ × ℤ) (n : ℕ) : ∀ (start : ℕ) (a : List ℤ),
    a.length = (start + n) * 4 → ∀ i k : ℕ, i < n → k < 4 →
    (previewLoopAux f start n a)[(start + i) * 4 + k]? =
      some (quadComponent (f (start + i)) k) := by
  induction n with
  | zero => intro start a _ i k hi _; omega
  | succ n ih =>
      intro start a ha i k hi hk
      simp only [previewLoopAux]
      cases i with
      | zero =>
          have hidx : (start + 0) * 4 + k = start * 4 + k := by ring
          rw [hidx]
          rw [previewLoopAux_get_lt f n (start+1) _ _ (by omega)]
          have hlen : start * 4 + 3 < a.length := by omega
          have := get?_writeQuad_hit a (start * 4) (f start) hk hlen
          simpa using this
      | succ i' =>
          have hlen : (writeQuad a (start * 4) (f start)).length = ((start + 1) + n) * 4 := by
            rw [writeQuad_length]; omega
          have hidx : (start + (i' + 1)) * 4 + k = ((start + 1) + i') * 4 + k := by ring
          have harg : start + (i' + 1) = (start + 1) + i' := by ring
          rw [hidx, harg]
          exact ih (start+1) _ hlen i' k (by omega) hk

lemma processPixelsWithDest_length (img : ImageDataM) (boost : ℝ) (input : LookInput)
    (mode : PQEncodeMode) (dest : List ℤ) :
    (processPixelsWithDest img boost input mode dest).length = dest.length :=
  processLoopAux_length _ _ _ _

lemma processPixelsWithDest_get (img : ImageDataM) (boost : ℝ) (input : LookInput)
    (mode : PQEncodeMode) (dest : List ℤ)
    (hd : dest.length = img.width * img.height * 3) {i k : ℕ}
    (hi : i < img.width * img.height) (hk : k < 3) :
    (processPixelsWithDest img boost input mode dest)[i * 3 + k]? =
      some (tripleComponent (processPixelsTriple img boost input mode i) k) := by
  unfold processPixelsWithDest
  have h := processLoopAux_get_hit (processPixelsTriple img boost input mode)
    (img.width * img.height) 0 dest (by omega) i k hi hk
  simpa using h

/-- `processPixels` performs a full overwrite: the result over any
correctly-sized destination is independent of the destination's prior
contents. -/
lemma processPixelsWithDest_irrel (img : ImageDataM) (boost : ℝ) (input : LookInput)
    (mode : PQEncodeMode) (d1 d2 : List ℤ)
    (h1 : d1.length = img.width * img.height * 3)
    (h2 : d2.length = img.width * img.height * 3) :
    processPixelsWithDest img boost input mode d1 =
      processPixelsWithDest img boost input mode d2 := by
  apply List.ext_getElem?
  intro j
  by_cases hj : j < img.width * img.height * 3
  · have hdecomp : j = (j / 3) * 3 + j % 3 := by omega
    rw [hdecomp,
      processPixelsWithDest_get img boost input mode d1 h1 (by omega) (by omega),
      processPixelsWithDest_get img boost input mode d2 h2 (by omega) (by omega)]
  · rw [List.getElem?_eq_none (by rw [processPixelsWithDest_length]; omega),
      List.getElem?_eq_none (by rw [processPixelsWithDest_length]; omega)]

lemma processPreviewWithDest_length (img : ImageDataM) (input : LookInput) (dest : List ℤ) :
    (processPreviewWithDest img input dest).length = dest.length :=
  previewLoopAux_length _ _ _ _

lemma processPreviewWithDest_get (img : ImageDataM) (input : LookInput) (dest : List ℤ)
    (hd : dest.length = img.width * img.height * 4) {i k : ℕ}
    (hi : i < img.width * img.height) (hk : k < 4) :
    (processPreviewWithDest img input dest)[i * 4 + k]? =
      some (quadComponent (processPreviewQuad img input i) k) := by
  unfold processPreviewWithDest
  have h := previewLoopAux_get_hit (processPreviewQuad img input)
    (img.width * img.height) 0 dest (by omega) i k hi hk
  simpa using h

lemma processPreviewWithDest_irrel (img : ImageDataM) (input : LookInput) (d1 d2 : List ℤ)
    (h1 : d1.length = img.width * img.height * 4)
    (h2 : d2.length = img.width * img.height * 4) :
    processPreviewWithDest img input d1 = processPreviewWithDest img input d2 := by
  apply List.ext_getElem?
  intro j
  by_cases hj : j < img.width * img.height * 4
  · have hdecomp : j = (j / 4) * 4 + j % 4 := by omega
    rw [hdecomp,
      processPreviewWithDest_get img input d1 h1 (by omega) (by omega),
      processPreviewWithDest_get img input d2 h2 (by omega) (by omega)]
  · rw [List.getElem?_eq_none (by rw [processPreviewWithDest_length]; omega),
      List.getElem?_eq_none (by rw [processPreviewWithDest_length]; omega)]

/-- C10.  Both transforms return buffers of exactly `width*height*3`
(export) and `width*height*4` (preview) entries; a caller-supplied buffer
is written through — with a full overwrite, so the result never depends
on its prior contents — exactly when its length matches, and a buffer of
any other length is ignored in favour of a fresh allocation. -/
theorem processPixels_buffer_contract :
    ∀ (img : ImageDataM) (boost : ℝ) (input : LookInput) (mode : PQEncodeMode)
      (buf pbuf : List ℤ),
      (processPixels img boost input mode none).length = img.width * img.height * 3 ∧
      (processPreviewPixels img boost input none).length = img.width * img.height * 4 ∧
      (buf.length = img.width * img.height * 3 →
        processPixels img boost input mode (some buf) =
          processPixelsWithDest img boost input mode buf ∧
        processPixelsWithDest img boost input mode buf =
          processPixels img boost input mode none) ∧
      (buf.length ≠ img.width * img.height * 3 →
        processPixels img boost input mode (some buf) =
          processPixels img boost input mode none) ∧
      (pbuf.length = img.width * img.height * 4 →
        processPreviewPixels img boost input (some pbuf) =
          processPreviewWithDest img input pbuf ∧
        processPreviewWithDest img input pbuf =
          processPreviewPixels img boost input none) ∧
      (pbuf.length ≠ img.width * img.height * 4 →
        processPreviewPixels img boost input (some pbuf) =
          processPreviewPixels img boost input none) := by
  intro img boost input mode buf pbuf
  refine ⟨?_, ?_, ?_, ?_, ?_, ?_⟩
  · show (processPixelsWithDest img boost input mode _).length = _
    rw [processPixelsWithDest_length, List.length_replicate]
  · show (processPreviewWithDest img input _).length = _
    rw [processPreviewWithDest_length, List.length_replicate]
  · intro hb
    constructor
    · show processPixelsWithDest img boost input mode
        (if buf.length = img.width * img.height * 3 then buf else _) = _
      rw [if_pos hb]
    · exact processPixelsWithDest_irrel img boost input mode buf _ hb
        (List.length_replicate _ _)
  · intro hb
    show processPixelsWithDest img boost input mode
        (if buf.length = img.width * img.height * 3 then buf else _) = _
    rw [if_neg hb]
    rfl

  · intro hb
    constructor
    · show processPreviewWithDest img input
        (if pbuf.length = img.width * img.height * 4 then pbuf else _) = _
      rw [if_pos hb]
    · exact processPreviewWithDest_irrel img input pbuf _ hb (List.length_replicate _ _)
  · intro hb
    show processPreviewWithDest img input
        (if pbuf.length = img.width * img.height * 4 then pbuf else _) = _
    rw [if_neg hb]
    rfl

/-- C10 witness at a concrete 1-pixel image with correctly and
incorrectly sized caller buffers. -/
theorem processPixels_buffer_contract_witness :
    ([0, 0, 0] : List ℤ).length = 1 * 1 * 3 ∧
    processPixels ⟨[0, 0, 0, 255], 1, 1⟩ 1 emptyLookInput PQEncodeMode.lut
        (some [0, 0, 0]) =
      processPixelsWithDest ⟨[0, 0, 0, 255], 1, 1⟩ 1 emptyLookInput PQEncodeMode.lut
        [0, 0, 0] ∧
    ([0] : List ℤ).length ≠ 1 * 1 * 3 ∧
    processPixels ⟨[0, 0, 0, 255], 1, 1⟩ 1 emptyLookInput PQEncodeMode.lut (some [0]) =
      processPixels ⟨[0, 0, 0, 255], 1, 1⟩ 1 emptyLookInput PQEncodeMode.lut none := by
  refine ⟨rfl, ?_, by decide, ?_⟩
  · exact ((processPixels_buffer_contract ⟨[0, 0, 0, 255], 1, 1⟩ 1 emptyLookInput
      PQEncodeMode.lut [0, 0, 0] []).2.2.1 rfl).1
  · exact (processPixels_buffer_contract ⟨[0, 0, 0, 255], 1, 1⟩ 1 emptyLookInput
      PQEncodeMode.lut [0] []).2.2.2.1 (by decide)

/-- C8.  The SDR preview output is byte-for-byte independent of the
boost argument (the implementation discards it), and the fixed preview
gain `SDR_TO_PQ_SCALE` equals the export gain at the minimum boost
slider value. -/
theorem processPreviewPixels_boost_independent :
    (∀ (img : ImageDataM) (b1 b2 : ℝ) (input : LookInput) (outBuffer : Option (List ℤ)),
      processPreviewPixels img b1 input outBuffer =
        processPreviewPixels img b2 input outBuffer) ∧
    SDR_TO_PQ_SCALE = boostToPQGain BOOST_UI_MIN := by
  constructor
  · intro img b1 b2 input outBuffer
    rfl
  · rw [boostToPQGain_eq]
    unfold SDR_TO_PQ_SCALE SDR_DIFFUSE_WHITE_NITS PQ_MAX_NITS BOOST_UI_MIN
    rw [show max (1:ℝ) 0 = 1 from max_eq_left (by norm_num)]
    norm_num

/-! ### Per-pixel pipeline evaluation lemmas -/

lemma normalizeLookControls_empty :
    normalizeLookControls emptyLookInput = DEFAULT_LOOK_CONTROLS := by
  unfold normalizeLookControls emptyLookInput DEFAULT_LOOK_CONTROLS
  simp only [Option.getD_none]
  congr 1 <;> exact clamp_eq_self (by norm_num) (by norm_num)

lemma normalize_gamma_lb (input : LookInput) :
    0.1 ≤ (normalizeLookControls input).gamma := by
  show 0.1 ≤ clamp (input.gamma.getD 1) 0.1 3
  exact (clamp_mem (by norm_num)).1

lemma lumaY_zero : lumaY ⟨0, 0, 0⟩ = 0 := by
  unfold lumaY
  norm_num

lemma lumaY_const (c : ℝ) : lumaY ⟨c, c, c⟩ = c := by
  unfold lumaY
  ring

lemma applySat_zero (sat : ℝ) : applySat sat 0 ⟨0, 0, 0⟩ = ⟨0, 0, 0⟩ := by
  unfold applySat
  split_ifs with h
  · simp only [RGB.mk.injEq]
    refine ⟨by ring, by ring, by ring⟩
  · rfl

lemma applySat_one (y : ℝ) (p : RGB) : applySat 1 y p = p := by
  unfold applySat
  rw [if_neg (by simp)]

lemma applyVib_zero (vd : ℝ) : applyVib vd 0 ⟨0, 0, 0⟩ = ⟨0, 0, 0⟩ := by
  unfold applyVib
  split_ifs with h
  · simp only [RGB.mk.injEq]
    refine ⟨by ring, by ring, by ring⟩
  · rfl

lemma applyVib_neutral (y : ℝ) (p : RGB) : applyVib 0 y p = p := by
  unfold applyVib
  rw [if_neg (by simp)]

lemma applyContrastLift_neutral (p : RGB) : applyContrastLift 1 0 p = p := by
  unfold applyContrastLift
  rw [if_neg (by simp)]

/-- With shadow lift off and contrast at least 1, the contrast block maps
black to black: the remapped luminance `0.18 (1 - contrast)` is not
positive, so neither rescaling branch fires. -/
lemma applyContrastLift_black {c lift : ℝ} (hc : 1 ≤ c) (hl : lift = 0) :
    applyContrastLift c lift ⟨0, 0, 0⟩ = ⟨0, 0, 0⟩ := by
  subst hl
  simp only [applyContrastLift, lumaY_zero]
  split_ifs
  all_goals first
    | rfl
    | (exfalso; nlinarith)

lemma applyShoulder_skip {knee : ℝ} {p : RGB} (h : lumaY p ≤ 1) :
    applyShoulder knee p = p := by
  unfold applyShoulder
  rw [if_neg (not_lt.mpr h)]

lemma applyShoulder_zero (knee : ℝ) : applyShoulder knee ⟨0, 0, 0⟩ = ⟨0, 0, 0⟩ :=
  applyShoulder_skip (by rw [lumaY_zero]; norm_num)

/-- C2 core: with a normalized gamma, shadow lift off and contrast ≥ 1,
the full per-pixel pipeline sends the zero byte triple to the zero code
triple, for every gain, knee and PQ encoder mode. -/
lemma pipelinePixel_black (look : LookControls) (gain knee : ℝ) (mode : PQEncodeMode)
    (hγ : 0.1 ≤ look.gamma) (hc : 1 ≤ look.contrast) (hs : look.shadowLift = 0) :
    pipelinePixel look gain knee mode 0 0 0 = (0, 0, 0) := by
  simp only [pipelinePixel]
  rw [gammaLUTValue_black hγ]
  have hp0 : (⟨(0.6274039 * 0 + 0.3292830 * 0 + 0.0433131 * 0) * gain,
      (0.0690973 * 0 + 0.9195404 * 0 + 0.0113623 * 0) * gain,
      (0.0163914 * 0 + 0.0880133 * 0 + 0.8955953 * 0) * gain⟩ : RGB) = ⟨0, 0, 0⟩ := by
    simp only [RGB.mk.injEq]
    refine ⟨by ring, by ring, by ring⟩
  rw [hp0, lumaY_zero, applySat_zero, applyVib_zero, applyContrastLift_black hc hs,
    applyShoulder_zero]
  have hcl : clamp (0:ℝ) 0 1 = 0 := clamp_eq_self le_rfl (by norm_num)
  simp only [hcl]
  rw [u16Store_pqEncode_zero]

/-- C2 (amended).  `processPixels` maps a pixel whose R, G, B bytes are
all 0 to the 16-bit output triple `(0,0,0)` for every boost, every PQ
encoder mode and every normalized look-controls whose contrast is ≥ 1
and whose shadow lift is 0 (the defaults included).  With contrast below
1 or shadow lift above 0 the pivot remap lifts black, so the unrestricted
claim fails (see the counterexample). -/
theorem processPixels_black_to_zero :
    ∀ (img : ImageDataM) (boost : ℝ) (input : LookInput) (mode : PQEncodeMode) (i : ℕ),
      i < img.width * img.height →
      1 ≤ (normalizeLookControls input).contrast →
      (normalizeLookControls input).shadowLift = 0 →
      img.data.getD (i*4) 0 = 0 →
      img.data.getD (i*4+1) 0 = 0 →
      img.data.getD (i*4+2) 0 = 0 →
      (processPixels img boost input mode none)[i*3]? = some 0 ∧
      (processPixels img boost input mode none)[i*3+1]? = some 0 ∧
      (processPixels img boost input mode none)[i*3+2]? = some 0 := by
  intro img boost input mode i hi hc hs hr hg hb
  have htriple : processPixelsTriple img boost input mode i = (0, 0, 0) := by
    unfold processPixelsTriple
    rw [hr, hg, hb]
    exact pipelinePixel_black _ _ _ _ (normalize_gamma_lb input) hc hs
  have hlen : (List.replicate (img.width * img.height * 3) (0:ℤ)).length =
      img.width * img.height * 3 := List.length_replicate _ _
  refine ⟨?_, ?_, ?_⟩
  · have h := processPixelsWithDest_get img boost input mode _ hlen hi
      (show 0 < 3 by norm_num)
    rw [show i*3 = i*3+0 by ring]
    rw [show processPixels img boost input mode none =
      processPixelsWithDest img boost input mode
        (List.replicate (img.width * img.height * 3) 0) from rfl, h, htriple]
    rfl
  · have h := processPixelsWithDest_get img boost input mode _ hlen hi
      (show 1 < 3 by norm_num)
    rw [show processPixels img boost input mode none =
      processPixelsWithDest img boost input mode
        (List.replicate (img.width * img.height * 3) 0) from rfl, h, htriple]
    rfl
  · have h := processPixelsWithDest_get img boost input mode _ hlen hi
      (show 2 < 3 by norm_num)
    rw [show processPixels img boost input mode none =
      processPixelsWithDest img boost input mode
        (List.replicate (img.width * img.height * 3) 0) from rfl, h, htriple]
    rfl

/-- C2 witness: a 1×1 black image with the default (absent) controls. -/
theorem processPixels_black_to_zero_witness :
    0 < (1:ℕ) * 1 ∧
    1 ≤ (normalizeLookControls emptyLookInput).contrast ∧
    (normalizeLookControls emptyLookInput).shadowLift = 0 ∧
    ((processPixels ⟨[0, 0, 0, 255], 1, 1⟩ 1 emptyLookInput PQEncodeMode.lut none)[0*3]? =
        some 0 ∧
      (processPixels ⟨[0, 0, 0, 255], 1, 1⟩ 1 emptyLookInput PQEncodeMode.lut none)[0*3+1]? =
        some 0 ∧
      (processPixels ⟨[0, 0, 0, 255], 1, 1⟩ 1 emptyLookInput PQEncodeMode.lut none)[0*3+2]? =
        some 0) := by
  have hc : 1 ≤ (normalizeLookControls emptyLookInput).contrast := by
    rw [normalizeLookControls_empty]
    norm_num [DEFAULT_LOOK_CONTROLS]
  have hs : (normalizeLookControls emptyLookInput).shadowLift = 0 := by
    rw [normalizeLookControls_empty]
    norm_num [DEFAULT_LOOK_CONTROLS]
  exact ⟨by norm_num, hc, hs,
    processPixels_black_to_zero ⟨[0, 0, 0, 255], 1, 1⟩ 1 emptyLookInput PQEncodeMode.lut 0
      (by norm_num) hc hs rfl rfl rfl⟩

/-- A legal partial look-controls input setting only `contrast` to 0.75,
the declared minimum of its range. -/
noncomputable def lowContrastInput : LookInput :=
  ⟨none, none, none, none, none, some 0.75, none, none, none, none, none, none, none, none⟩

lemma normalize_lowContrast :
    normalizeLookControls lowContrastInput =
      ⟨0, 1, 0, 0, 1, 0.75, 0, 0, 0, 1, 1, 0, 0, 1⟩ := by
  unfold normalizeLookControls lowContrastInput
  simp only [Option.getD_some, Option.getD_none]
  congr 1 <;> exact clamp_eq_self (by norm_num) (by norm_num)

/-- With contrast 0.75 the pivot remap sends black to the uniform grey
`0.18 * (1 - 0.75) = 9/200`. -/
lemma applyContrastLift_lowContrast :
    applyContrastLift 0.75 0 ⟨0, 0, 0⟩ = ⟨9/200, 9/200, 9/200⟩ := by
  simp only [applyContrastLift, lumaY_zero]
  rw [if_pos (Or.inl (by norm_num))]
  rw [if_neg (show ¬(0:ℝ) < 0 by norm_num), if_neg (show ¬(1e-6:ℝ) < 0 by norm_num),
    if_pos (show (0:ℝ) < 0.18 + (0 - 0.18) * 0.75 by norm_num)]
  simp only [RGB.mk.injEq]
  norm_num

lemma pipelinePixel_lowContrast (gain knee : ℝ) :
    pipelinePixel (normalizeLookControls lowContrastInput) gain knee PQEncodeMode.lut 0 0 0 =
      (u16Store (pqOETFFast (9/200)), u16Store (pqOETFFast (9/200)),
        u16Store (pqOETFFast (9/200))) := by
  rw [normalize_lowContrast]
  simp only [pipelinePixel]
  rw [gammaLUTValue_black (by norm_num)]
  have hp0 : (⟨(0.6274039 * 0 + 0.3292830 * 0 + 0.0433131 * 0) * gain,
      (0.0690973 * 0 + 0.9195404 * 0 + 0.0113623 * 0) * gain,
      (0.0163914 * 0 + 0.0880133 * 0 + 0.8955953 * 0) * gain⟩ : RGB) = ⟨0, 0, 0⟩ := by
    simp only [RGB.mk.injEq]
    refine ⟨by ring, by ring, by ring⟩
  rw [hp0, lumaY_zero, applySat_one, show (1:ℝ) - 1 = 0 by norm_num, applyVib_neutral,
    applyContrastLift_lowContrast,
    applyShoulder_skip (by rw [lumaY_const]; norm_num)]
  rw [clamp_eq_self (show (0:ℝ) ≤ 9/200 by norm_num) (show (9:ℝ)/200 ≤ 1 by norm_num)]
  rfl

/-- C2 counterexample: the claim as stated — black maps to `(0,0,0)` for
every normalized look-controls — fails at `contrast = 0.75` (a legal
value): the first output channel of a black pixel is a code value of at
least 32768, not 0. -/
theorem processPixels_black_claim_counterexample :
    (processPixels ⟨[0, 0, 0, 255], 1, 1⟩ 1 lowContrastInput PQEncodeMode.lut none)[0]? ≠
      some 0 := by
  have hlen : (List.replicate ((1:ℕ) * 1 * 3) (0:ℤ)).length = 1 * 1 * 3 :=
    List.length_replicate _ _
  have hget := processPixelsWithDest_get ⟨[0, 0, 0, 255], 1, 1⟩ 1 lowContrastInput
    PQEncodeMode.lut _ hlen (show 0 < 1 * 1 by norm_num) (show 0 < 3 by norm_num)
  have hidx : (0:ℕ) * 3 + 0 = 0 := by norm_num
  rw [hidx] at hget
  rw [show processPixels ⟨[0, 0, 0, 255], 1, 1⟩ 1 lowContrastInput PQEncodeMode.lut none =
    processPixelsWithDest ⟨[0, 0, 0, 255], 1, 1⟩ 1 lowContrastInput PQEncodeMode.lut
      (List.replicate (1 * 1 * 3) 0) from rfl, hget]
  have htr : processPixelsTriple ⟨[0, 0, 0, 255], 1, 1⟩ 1 lowContrastInput
      PQEncodeMode.lut 0 =
      (u16Store (pqOETFFast (9/200)), u16Store (pqOETFFast (9/200)),
        u16Store (pqOETFFast (9/200))) := by
    unfold processPixelsTriple
    exact pipelinePixel_lowContrast _ _
  rw [htr]
  intro hcontra
  have hz := Option.some.inj hcontra
  simp only [tripleComponent] at hz
  have hfast0 : 0 ≤ pqOETFFast (9/200) := pqOETFFast_nonneg _
  have hfast1 : pqOETFFast (9/200) ≤ 1 := pqOETFFast_le_one _
  have hlow : (1:ℝ)/2 ≤ pqOETFFast (9/200) :=
    le_trans half_le_pqLUT_1474
      (knot_le_pqOETFFast (by norm_num) (by norm_num) (by norm_num))
  have hstore : u16Store (pqOETFFast (9/200)) = jsRound (pqOETFFast (9/200) * 65535) :=
    u16Store_eq_jsRound hfast0 hfast1
  have hhalf : jsRound ((32767.5:ℝ)) = 32768 := jsRound_eq (by norm_num) (by norm_num)
  have hge : (32768:ℤ) ≤ u16Store (pqOETFFast (9/200)) := by
    rw [hstore, ← hhalf]
    exact jsRound_mono (by nlinarith)
  rw [hz] at hge
  omega

lemma getD_byte_le {l : List ℕ} (h : ∀ v ∈ l, v ≤ 255) (n : ℕ) : l.getD n 0 ≤ 255 := by
  by_cases hn : n < l.length
  · rw [List.getD_eq_getElem?_getD, List.getElem?_eq_getElem hn]
    exact h _ (List.getElem_mem hn)
  · rw [List.getD_eq_getElem?_getD, List.getElem?_eq_none (by omega)]
    norm_num

/-- With all look blocks neutral and a gain of at most 1, the per-pixel
pipeline reduces to matrix ∘ gain ∘ clamp ∘ PQ ∘ quantize: the luminance
never exceeds 1.0, so the adaptive shoulder stays disengaged. -/
lemma pipelinePixel_neutral_eq (look : LookControls) (gain knee : ℝ) (mode : PQEncodeMode)
    (rB gB bB : ℕ)
    (hγ : look.gamma = 1) (hsat : look.saturation = 1) (hvib : look.vibrance = 1)
    (hcon : look.contrast = 1) (hlift : look.shadowLift = 0)
    (hr : rB ≤ 255) (hgB : gB ≤ 255) (hbB : bB ≤ 255) (hg0 : 0 ≤ gain) (hg1 : gain ≤ 1) :
    pipelinePixel look gain knee mode rB gB bB =
      (u16Store (pqEncode mode (clamp ((0.6274039 * srgbEOTF ((rB:ℝ)/255) +
          0.3292830 * srgbEOTF ((gB:ℝ)/255) + 0.0433131 * srgbEOTF ((bB:ℝ)/255)) * gain) 0 1)),
       u16Store (pqEncode mode (clamp ((0.0690973 * srgbEOTF ((rB:ℝ)/255) +
          0.9195404 * srgbEOTF ((gB:ℝ)/255) + 0.0113623 * srgbEOTF ((bB:ℝ)/255)) * gain) 0 1)),
       u16Store (pqEncode mode (clamp ((0.0163914 * srgbEOTF ((rB:ℝ)/255) +
          0.0880133 * srgbEOTF ((gB:ℝ)/255) + 0.8955953 * srgbEOTF ((bB:ℝ)/255)) * gain) 0 1))) := by
  have her0 : 0 ≤ srgbEOTF ((rB:ℝ)/255) := srgbEOTF_nonneg (by positivity)
  have heg0 : 0 ≤ srgbEOTF ((gB:ℝ)/255) := srgbEOTF_nonneg (by positivity)
  have heb0 : 0 ≤ srgbEOTF ((bB:ℝ)/255) := srgbEOTF_nonneg (by positivity)
  have her1 : srgbEOTF ((rB:ℝ)/255) ≤ 1 := by
    apply srgbEOTF_le_one (by positivity)
    rw [div_le_one (by norm_num)]
    exact_mod_cast hr
  have heg1 : srgbEOTF ((gB:ℝ)/255) ≤ 1 := by
    apply srgbEOTF_le_one (by positivity)
    rw [div_le_one (by norm_num)]
    exact_mod_cast hgB
  have heb1 : srgbEOTF ((bB:ℝ)/255) ≤ 1 := by
    apply srgbEOTF_le_one (by positivity)
    rw [div_le_one (by norm_num)]
    exact_mod_cast hbB
  simp only [pipelinePixel]
  rw [hγ]
  simp only [gammaLUTValue_at_one]
  rw [hsat, applySat_one, hvib, show (1:ℝ) - 1 = 0 by norm_num, applyVib_neutral,
    hcon, hlift, applyContrastLift_neutral]
  rw [applyShoulder_skip ?hy]
  case hy =>
    unfold lumaY
    nlinarith [mul_le_mul_of_nonneg_right her1 hg0, mul_le_mul_of_nonneg_right heg1 hg0,
      mul_le_mul_of_nonneg_right heb1 hg0, mul_nonneg her0 hg0, mul_nonneg heg0 hg0,
      mul_nonneg heb0 hg0]

/-- C4 (amended).  With the default (neutral) look-controls and boosts
within the UI range — `b1 ≤ b2 ≤ BOOST_UI_MAX` — no 16-bit output
channel of `processPixels` decreases when the boost increases, in either
PQ encoder mode.  Past `BOOST_UI_MAX` the `y > 1` shoulder gate breaks
monotonicity even for neutral controls (see the counterexample), and a
positive `shadowLift` breaks it inside the range. -/
theorem processPixels_boost_monotone_defaults :
    ∀ (img : ImageDataM) (mode : PQEncodeMode) (b1 b2 : ℝ) (i k : ℕ),
      (∀ v ∈ img.data, v ≤ 255) →
      b1 ≤ b2 → b2 ≤ BOOST_UI_MAX →
      i < img.width * img.height → k < 3 →
      (processPixels img b1 emptyLookInput mode none).getD (i * 3 + k) 0 ≤
        (processPixels img b2 emptyLookInput mode none).getD (i * 3 + k) 0 := by
  intro img mode b1 b2 i k hbytes hb12 hb2 hi hk
  have hlen : ∀ b : ℝ, (List.replicate (img.width * img.height * 3) (0:ℤ)).length =
      img.width * img.height * 3 := fun _ => List.length_replicate _ _
  have hget1 := processPixelsWithDest_get img b1 emptyLookInput mode _ (hlen b1) hi hk
  have hget2 := processPixelsWithDest_get img b2 emptyLookInput mode _ (hlen b2) hi hk
  rw [show processPixels img b1 emptyLookInput mode none =
    processPixelsWithDest img b1 emptyLookInput mode
      (List.replicate (img.width * img.height * 3) 0) from rfl,
    show processPixels img b2 emptyLookInput mode none =
    processPixelsWithDest img b2 emptyLookInput mode
      (List.replicate (img.width * img.height * 3) 0) from rfl,
    List.getD_eq_getElem?_getD, List.getD_eq_getElem?_getD, hget1, hget2,
    Option.getD_some, Option.getD_some]
  -- reduce both triples to the neutral closed form
  have hg10 : 0 ≤ boostToPQGain b1 := by
    rw [boostToPQGain_eq]
    positivity
  have hg12 : boostToPQGain b1 ≤ boostToPQGain b2 := by
    rw [boostToPQGain_eq, boostToPQGain_eq]
    have h1 : max b1 0 ≤ max b2 0 := max_le_max hb12 le_rfl
    have h2 : (0:ℝ) ≤ max b1 0 := le_max_right _ _
    have := pow_le_pow_left₀ h2 h1 2
    linarith
  have hg21 : boostToPQGain b2 ≤ 1 := by
    rw [boostToPQGain_eq]
    have h1 : max b2 0 ≤ 10 := by
      apply max_le _ (by norm_num)
      have : BOOST_UI_MAX = 10 := by unfold BOOST_UI_MAX; norm_num
      linarith [hb2, this ▸ hb2]
    have h2 : (0:ℝ) ≤ max b2 0 := le_max_right _ _
    have := pow_le_pow_left₀ h2 h1 2
    nlinarith
  have hbr := getD_byte_le hbytes (i*4)
  have hbg := getD_byte_le hbytes (i*4+1)
  have hbb := getD_byte_le hbytes (i*4+2)
  have hT : ∀ b : ℝ, 0 ≤ boostToPQGain b → boostToPQGain b ≤ 1 →
      processPixelsTriple img b emptyLookInput mode i =
      (u16Store (pqEncode mode (clamp ((0.6274039 * srgbEOTF ((img.data.getD (i*4) 0 : ℝ)/255) +
          0.3292830 * srgbEOTF ((img.data.getD (i*4+1) 0 : ℝ)/255) +
          0.0433131 * srgbEOTF ((img.data.getD (i*4+2) 0 : ℝ)/255)) * boostToPQGain b) 0 1)),
       u16Store (pqEncode mode (clamp ((0.0690973 * srgbEOTF ((img.data.getD (i*4) 0 : ℝ)/255) +
          0.9195404 * srgbEOTF ((img.data.getD (i*4+1) 0 : ℝ)/255) +
          0.0113623 * srgbEOTF ((img.data.getD (i*4+2) 0 : ℝ)/255)) * boostToPQGain b) 0 1)),
       u16Store (pqEncode mode (clamp ((0.0163914 * srgbEOTF ((img.data.getD (i*4) 0 : ℝ)/255) +
          0.0880133 * srgbEOTF ((img.data.getD (i*4+1) 0 : ℝ)/255) +
          0.8955953 * srgbEOTF ((img.data.getD (i*4+2) 0 : ℝ)/255)) * boostToPQGain b) 0 1))) := by
    intro b h0 h1
    unfold processPixelsTriple
    rw [normalizeLookControls_empty]
    exact pipelinePixel_neutral_eq _ _ _ _ _ _ _ rfl rfl rfl rfl rfl hbr hbg hbb h0 h1
  rw [hT b1 hg10 (hg12.trans hg21), hT b2 (hg10.trans hg12) hg21]
  have her0 : 0 ≤ srgbEOTF ((img.data.getD (i*4) 0 : ℝ)/255) := srgbEOTF_nonneg (by positivity)
  have heg0 : 0 ≤ srgbEOTF ((img.data.getD (i*4+1) 0 : ℝ)/255) :=
    srgbEOTF_nonneg (by positivity)
  have heb0 : 0 ≤ srgbEOTF ((img.data.getD (i*4+2) 0 : ℝ)/255) :=
    srgbEOTF_nonneg (by positivity)
  have hmono : ∀ A : ℝ, 0 ≤ A →
      u16Store (pqEncode mode (clamp (A * boostToPQGain b1) 0 1)) ≤
        u16Store (pqEncode mode (clamp (A * boostToPQGain b2) 0 1)) := by
    intro A hA
    have hc10 : 0 ≤ clamp (A * boostToPQGain b1) 0 1 := (clamp_mem (by norm_num)).1
    have hc20 : 0 ≤ clamp (A * boostToPQGain b2) 0 1 := (clamp_mem (by norm_num)).1
    have hc21 : clamp (A * boostToPQGain b2) 0 1 ≤ 1 := (clamp_mem (by norm_num)).2
    apply u16Store_mono (pqEncode_nonneg mode hc10)
    · exact pqEncode_mono mode hc10 (clamp_mono (mul_le_mul_of_nonneg_left hg12 hA))
    · exact pqEncode_le_one mode hc20 hc21
  interval_cases k
  · exact hmono _ (by nlinarith)
  · exact hmono _ (by nlinarith)
  · exact hmono _ (by nlinarith)

/-- C4 witness at a 1×1 black image, boosts 1 ≤ 2 within the UI range. -/
theorem processPixels_boost_monotone_defaults_witness :
    (∀ v ∈ ([0, 0, 0, 255] : List ℕ), v ≤ 255) ∧ (1:ℝ) ≤ 2 ∧ (2:ℝ) ≤ BOOST_UI_MAX ∧
    (processPixels ⟨[0, 0, 0, 255], 1, 1⟩ 1 emptyLookInput PQEncodeMode.lut none).getD
        (0 * 3 + 0) 0 ≤
      (processPixels ⟨[0, 0, 0, 255], 1, 1⟩ 2 emptyLookInput PQEncodeMode.lut none).getD
        (0 * 3 + 0) 0 := by
  have hmax : (2:ℝ) ≤ BOOST_UI_MAX := by unfold BOOST_UI_MAX; norm_num
  exact ⟨by decide, by norm_num, hmax,
    processPixels_boost_monotone_defaults ⟨[0, 0, 0, 255], 1, 1⟩ PQEncodeMode.lut 1 2 0 0
      (by decide) (by norm_num) hmax (by norm_num) (by norm_num)⟩

lemma srgbEOTF_255 : srgbEOTF (((255:ℕ):ℝ)/255) = 1 := by
  rw [show ((255:ℕ):ℝ)/255 = 1 by norm_num, srgbEOTF_one]

lemma softShoulder_4_078 : softShoulderLuma 4 0.78 = 8479/8600 := by
  unfold softShoulderLuma
  rw [if_neg (by norm_num)]
  norm_num

lemma boostToPQGain_10 : boostToPQGain 10 = 1 := by
  rw [boostToPQGain_eq, show max (10:ℝ) 0 = 10 from max_eq_left (by norm_num)]
  norm_num

lemma boostToPQGain_20 : boostToPQGain 20 = 4 := by
  rw [boostToPQGain_eq, show max (20:ℝ) 0 = 20 from max_eq_left (by norm_num)]
  norm_num

lemma shoulderKneeFor_4 : shoulderKneeFor 4 1 = 0.78 := by
  unfold shoulderKneeFor clamp
  norm_num

/-- At boost 20 (gain 4) the white pixel crosses the `y > 1` gate, the
shoulder rescales it to `8479/8600 < 1`, and the channel leaves the top
code value. -/
lemma pipelinePixel_white_boost20 :
    pipelinePixel DEFAULT_LOOK_CONTROLS 4 0.78 PQEncodeMode.lut 255 255 255 =
      (u16Store (pqOETFFast (8479/8600)), u16Store (pqOETFFast (8479/8600)),
        u16Store (pqOETFFast (8479/8600))) := by
  simp only [pipelinePixel]
  rw [show DEFAULT_LOOK_CONTROLS.gamma = 1 from rfl]
  simp only [gammaLUTValue_at_one, srgbEOTF_255]
  have hp0 : (⟨(0.6274039 * 1 + 0.3292830 * 1 + 0.0433131 * 1) * 4,
      (0.0690973 * 1 + 0.9195404 * 1 + 0.0113623 * 1) * 4,
      (0.0163914 * 1 + 0.0880133 * 1 + 0.8955953 * 1) * 4⟩ : RGB) = ⟨4, 4, 4⟩ := by
    simp only [RGB.mk.injEq]
    norm_num
  rw [hp0, show DEFAULT_LOOK_CONTROLS.saturation = 1 from rfl, applySat_one,
    show DEFAULT_LOOK_CONTROLS.vibrance = 1 from rfl, show (1:ℝ) - 1 = 0 by norm_num,
    applyVib_neutral, show DEFAULT_LOOK_CONTROLS.contrast = 1 from rfl,
    show DEFAULT_LOOK_CONTROLS.shadowLift = 0 from rfl, applyContrastLift_neutral]
  have hshoulder : applyShoulder 0.78 ⟨4, 4, 4⟩ =
      ⟨8479/8600, 8479/8600, 8479/8600⟩ := by
    simp only [applyShoulder, lumaY_const]
    rw [if_pos (by norm_num : (1:ℝ) < 4), softShoulder_4_078,
      if_pos (by norm_num : (8479:ℝ)/8600 < 4)]
    unfold scaleRGB
    simp only [RGB.mk.injEq]
    norm_num
  rw [hshoulder]
  rw [clamp_eq_self (show (0:ℝ) ≤ 8479/8600 by norm_num)
    (show (8479:ℝ)/8600 ≤ 1 by norm_num)]
  rfl

/-- C4 counterexample: with the default controls and a 1×1 white image,
raising the boost from 10 to 20 strictly decreases the first output
channel (65535 down to at most 65528), because the highlight shoulder
engages only above luminance 1.0 with a knee of 0.78. -/
theorem processPixels_boost_monotone_counterexample :
    (processPixels ⟨[255, 255, 255, 255], 1, 1⟩ 20 emptyLookInput PQEncodeMode.lut
        none).getD (0 * 3 + 0) 0 <
      (processPixels ⟨[255, 255, 255, 255], 1, 1⟩ 10 emptyLookInput PQEncodeMode.lut
        none).getD (0 * 3 + 0) 0 := by
  have hlen : (List.replicate ((1:ℕ) * 1 * 3) (0:ℤ)).length = 1 * 1 * 3 :=
    List.length_replicate _ _
  have hget20 := processPixelsWithDest_get ⟨[255, 255, 255, 255], 1, 1⟩ 20 emptyLookInput
    PQEncodeMode.lut _ hlen (show 0 < 1 * 1 by norm_num) (show 0 < 3 by norm_num)
  have hget10 := processPixelsWithDest_get ⟨[255, 255, 255, 255], 1, 1⟩ 10 emptyLookInput
    PQEncodeMode.lut _ hlen (show 0 < 1 * 1 by norm_num) (show 0 < 3 by norm_num)
  rw [show processPixels ⟨[255, 255, 255, 255], 1, 1⟩ 20 emptyLookInput PQEncodeMode.lut
      none = processPixelsWithDest ⟨[255, 255, 255, 255], 1, 1⟩ 20 emptyLookInput
      PQEncodeMode.lut (List.replicate (1 * 1 * 3) 0) from rfl,
    show processPixels ⟨[255, 255, 255, 255], 1, 1⟩ 10 emptyLookInput PQEncodeMode.lut
      none = processPixelsWithDest ⟨[255, 255, 255, 255], 1, 1⟩ 10 emptyLookInput
      PQEncodeMode.lut (List.replicate (1 * 1 * 3) 0) from rfl,
    List.getD_eq_getElem?_getD, List.getD_eq_getElem?_getD, hget20, hget10,
    Option.getD_some, Option.getD_some]
  -- the boost-10 side: gain 1, shoulder disengaged, full-scale output
  have h10 : processPixelsTriple ⟨[255, 255, 255, 255], 1, 1⟩ 10 emptyLookInput
      PQEncodeMode.lut 0 =
      (u16Store (pqEncode PQEncodeMode.lut (clamp ((0.6274039 * 1 + 0.3292830 * 1 +
          0.0433131 * 1) * 1) 0 1)),
       u16Store (pqEncode PQEncodeMode.lut (clamp ((0.0690973 * 1 + 0.9195404 * 1 +
          0.0113623 * 1) * 1) 0 1)),
       u16Store (pqEncode PQEncodeMode.lut (clamp ((0.0163914 * 1 + 0.0880133 * 1 +
          0.8955953 * 1) * 1) 0 1))) := by
    simp only [processPixelsTriple]
    rw [normalizeLookControls_empty, boostToPQGain_10]
    have hd0 : (⟨[255, 255, 255, 255], 1, 1⟩ : ImageDataM).data.getD (0*4) 0 = 255 := rfl
    have hd1 : (⟨[255, 255, 255, 255], 1, 1⟩ : ImageDataM).data.getD (0*4+1) 0 = 255 := rfl
    have hd2 : (⟨[255, 255, 255, 255], 1, 1⟩ : ImageDataM).data.getD (0*4+2) 0 = 255 := rfl
    rw [hd0, hd1, hd2]
    have h := pipelinePixel_neutral_eq DEFAULT_LOOK_CONTROLS 1
      (shoulderKneeFor 1 DEFAULT_LOOK_CONTROLS.highlightRollOff) PQEncodeMode.lut
      255 255 255 rfl rfl rfl rfl rfl (by norm_num) (by norm_num) (by norm_num)
      (by norm_num) (by norm_num)
    rw [h]
    simp only [srgbEOTF_255]
  -- the boost-20 side: gain 4, shoulder engaged
  have h20 : processPixelsTriple ⟨[255, 255, 255, 255], 1, 1⟩ 20 emptyLookInput
      PQEncodeMode.lut 0 =
      (u16Store (pqOETFFast (8479/8600)), u16Store (pqOETFFast (8479/8600)),
        u16Store (pqOETFFast (8479/8600))) := by
    simp only [processPixelsTriple]
    rw [normalizeLookControls_empty, boostToPQGain_20,
      show DEFAULT_LOOK_CONTROLS.highlightRollOff = 1 from rfl, shoulderKneeFor_4]
    have hd0 : (⟨[255, 255, 255, 255], 1, 1⟩ : ImageDataM).data.getD (0*4) 0 = 255 := rfl
    have hd1 : (⟨[255, 255, 255, 255], 1, 1⟩ : ImageDataM).data.getD (0*4+1) 0 = 255 := rfl
    have hd2 : (⟨[255, 255, 255, 255], 1, 1⟩ : ImageDataM).data.getD (0*4+2) 0 = 255 := rfl
    rw [hd0, hd1, hd2]
    exact pipelinePixel_white_boost20
  rw [h10, h20]
  simp only [tripleComponent]
  -- evaluate the boost-10 value: exactly 65535
  have hsum : (0.6274039 * 1 + 0.3292830 * 1 + 0.0433131 * 1 : ℝ) * 1 = 1 := by norm_num
  have hfast1 : pqOETFFast 1 = 1 := by
    unfold pqOETFFast
    rw [if_neg (by norm_num), if_pos le_rfl]
  have hval10 : u16Store (pqEncode PQEncodeMode.lut (clamp ((0.6274039 * 1 + 0.3292830 * 1 +
      0.0433131 * 1) * 1) 0 1)) = 65535 := by
    rw [hsum, clamp_eq_self (by norm_num) (by norm_num)]
    show u16Store (pqOETFFast 1) = 65535
    rw [hfast1, u16Store_eq_jsRound (by norm_num) (by norm_num),
      show (1:ℝ) * 65535 = ((65535:ℤ):ℝ) by norm_num, jsRound_intCast]
  rw [hval10]
  -- bound the boost-20 value by 65528
  have hf0 : 0 ≤ pqOETFFast (8479/8600) := pqOETFFast_nonneg _
  have hf1 : pqOETFFast (8479/8600) ≤ 1 := pqOETFFast_le_one _
  have hfub : pqOETFFast (8479/8600) ≤ (9999:ℝ)/10000 :=
    le_trans (pqOETFFast_le_of_le_knot (by norm_num) (by norm_num) (by norm_num))
      pqLUT_32307_le
  have hub : u16Store (pqOETFFast (8479/8600)) ≤ 65528 := by
    rw [u16Store_eq_jsRound hf0 hf1]
    rw [show (65528:ℤ) = jsRound ((9999:ℝ)/10000 * 65535) from
      (jsRound_eq (by norm_num) (by norm_num)).symm]
    exact jsRound_mono (by nlinarith)
  omega

/-- C9 (amended).  At every table knot `k/32768` the LUT-interpolated PQ
encoder agrees with the exact rational-polynomial OETF to within 2 code
values of 65535 after 16-bit quantization (in fact the two quantized
codes are equal at every knot).  Over the full domain the 2-code bound
is false: inside the first table cell the chord underestimates the steep
PQ curve by hundreds of code values (see the counterexample). -/
theorem pqOETFFast_vs_exact_at_knots :
    ∀ k : ℕ, k ≤ 32768 →
      |jsRound (pqOETFFast ((k:ℝ)/32768) * 65535) -
        jsRound (pqOETF ((k:ℝ)/32768) * 65535)| ≤ 2 := by
  intro k hk
  by_cases h0 : k = 0
  · subst h0
    rw [show ((0:ℕ):ℝ)/32768 = 0 by norm_num]
    have hfast : pqOETFFast 0 = 0 := by
      unfold pqOETFFast
      rw [if_pos le_rfl]
    have hexact : jsRound (pqOETF 0 * 65535) = 0 := by
      have ha := pqOETF_nonneg (le_refl (0:ℝ))
      have hb := pqOETF_zero_small
      exact jsRound_eq (by nlinarith) (by push_cast; nlinarith)
    rw [hfast, zero_mul, jsRound_zero, hexact]
    norm_num
  by_cases h1 : k = 32768
  · subst h1
    rw [show ((32768:ℕ):ℝ)/32768 = 1 by norm_num]
    have hfast : pqOETFFast 1 = 1 := by
      unfold pqOETFFast
      rw [if_neg (by norm_num), if_pos le_rfl]
    rw [hfast, pqOETF_one, sub_self, abs_zero]
    norm_num
  · have hk0 : 0 < k := Nat.pos_of_ne_zero h0
    have hklt : k < 32768 := lt_of_le_of_ne hk h1
    rw [pqOETFFast_knot hk0 hklt,
      show pqLUT k = pqOETF ((k:ℝ)/32768) from rfl, sub_self, abs_zero]
    norm_num

/-- C9 witness at the mid-table knot `16384/32768`. -/
theorem pqOETFFast_vs_exact_at_knots_witness :
    (16384:ℕ) ≤ 32768 ∧
    |jsRound (pqOETFFast (((16384:ℕ):ℝ)/32768) * 65535) -
      jsRound (pqOETF (((16384:ℕ):ℝ)/32768) * 65535)| ≤ 2 :=
  ⟨by norm_num, pqOETFFast_vs_exact_at_knots 16384 (by norm_num)⟩

/-- C9 counterexample: at `L = 1/65536` — the midpoint of the first LUT
cell — the interpolated encoder is at least 500 code values below the
exact OETF, far outside the claimed 2-code tolerance. -/
theorem pqOETFFast_vs_exact_counterexample :
    ¬ (|jsRound (pqOETFFast ((1:ℝ)/65536) * 65535) -
        jsRound (pqOETF ((1:ℝ)/65536) * 65535)| ≤ 2) := by
  have hmid := pqOETFFast_mid (show (0:ℝ) < 1/65536 by norm_num)
    (show (1:ℝ)/65536 < 1 by norm_num)
  rw [show (1:ℝ)/65536 * 32768 = 1/2 by norm_num] at hmid
  rw [show ⌊(1:ℝ)/2⌋ = 0 from Int.floor_eq_iff.mpr (by constructor <;> norm_num)] at hmid
  simp only [Int.toNat_zero, Nat.cast_zero, zero_add, Nat.cast_ofNat, sub_zero] at hmid
  have ha := pqLUT_nonneg 0
  have ha' : pqLUT 0 ≤ 7/1000000 := by
    unfold pqLUT
    rw [show ((0:ℕ):ℝ)/32768 = 0 by norm_num]
    exact pqOETF_zero_small
  have hb := pqLUT_nonneg 1
  have hb' := pqLUT_one_le
  have hfub : pqOETFFast ((1:ℝ)/65536) ≤ 7/2000000 + 1/16 := by
    rw [hmid]
    nlinarith
  have hf0 : 0 ≤ pqOETFFast ((1:ℝ)/65536) := pqOETFFast_nonneg _
  have hcode_fast : jsRound (pqOETFFast ((1:ℝ)/65536) * 65535) ≤ 4096 := by
    rw [show (4096:ℤ) = jsRound ((7/2000000 + 1/16) * 65535) from
      (jsRound_eq (by norm_num) (by norm_num)).symm]
    exact jsRound_mono (by nlinarith)
  have hcode_exact : (4608:ℤ) ≤ jsRound (pqOETF ((1:ℝ)/65536) * 65535) := by
    rw [show (4608:ℤ) = jsRound ((9:ℝ)/128 * 65535) from
      (jsRound_eq (by norm_num) (by norm_num)).symm]
    exact jsRound_mono (by nlinarith [le_pqOETF_inv65536])
  intro hcontra
  rw [abs_le] at hcontra
  omega

/-! ### `encode-png.ts`: byte-level PNG container encoder

Bytes are natural numbers below 256 in lists; `DataView.setUint32` and
typed-array `set` calls become `writeBytes` (a segment overwrite), and
the two deflate backends and the fetched ICC profile are parameters. -/

/-- `DataView.setUint32` big-endian byte split (values wrap mod 2^32). -/
def be32 (n : ℕ) : List ℕ :=
  [n % 4294967296 / 16777216 % 256, n % 4294967296 / 65536 % 256,
   n % 4294967296 / 256 % 256, n % 4294967296 % 256]

lemma be32_length (n : ℕ) : (be32 n).length = 4 := rfl

/-- The 8-byte PNG signature. -/
def PNG_SIGNATURE : List ℕ := [137, 80, 78, 71, 13, 10, 26, 10]

/-- One step of the CRC table construction
(`c & 1 ? 0xedb88320 ^ (c >>> 1) : c >>> 1`). -/
def crcStep (c : ℕ) : ℕ := if c % 2 = 1 then Nat.xor 0xedb88320 (c / 2) else c / 2

/-- `crcTable[n]`: eight iterations of `crcStep` starting from `n`. -/
def crcTable (n : ℕ) : ℕ := crcStep^[8] n

/-- `crc32(buf)` with the standard PNG polynomial. -/
def crc32 (buf : List ℕ) : ℕ :=
  Nat.xor
    (buf.foldl (fun crc byte => Nat.xor (crcTable (Nat.xor crc byte % 256)) (crc / 256))
      0xffffffff)
    0xffffffff

/-- Overwrite the segment of `l` starting at `off` with `vs`
(typed-array `set` / `setUint32`; all uses stay in bounds). -/
def writeBytes (l : List ℕ) (off : ℕ) (vs : List ℕ) : List ℕ :=
  l.take off ++ vs ++ l.drop (off + vs.length)

lemma writeBytes_zero (b c vs : List ℕ) (h : vs.length = b.length) :
    writeBytes (b ++ c) 0 vs = vs ++ c := by
  unfold writeBytes
  rw [List.take_zero, Nat.zero_add, h, List.drop_left, List.nil_append]

lemma writeBytes_at (a b c vs : List ℕ) (off : ℕ) (hoff : off = a.length)
    (h : vs.length = b.length) : writeBytes (a ++ (b ++ c)) off vs = a ++ (vs ++ c) := by
  subst hoff
  unfold writeBytes
  rw [List.take_left, h, show a.length + b.length = (a ++ b).length from
    (List.length_append a b).symm, show a ++ (b ++ c) = (a ++ b) ++ c from
    (List.append_assoc a b c).symm, List.drop_left, List.append_assoc]

/-- The specification's chunk framing:
length (u32 BE), 4-byte type, data, CRC32 over type‖data (u32 BE). -/
def framedChunkSpec (typeBytes data : List ℕ) : List ℕ :=
  be32 data.length ++ typeBytes ++ data ++ be32 (crc32 (typeBytes ++ data))

/-- `makeChunk` from the source: allocate `4+4+len+4` zero bytes, write
the big-endian length at 0, the type at 4, the data at 8, then the CRC
of `chunk.subarray(4, 8+len)` at `8+len`. -/
def makeChunk (typeBytes data : List ℕ) : List ℕ :=
  let len := data.length
  let chunk0 := List.replicate (4 + 4 + len + 4) 0
  let c1 := writeBytes chunk0 0 (be32 len)
  let c2 := writeBytes c1 4 typeBytes
  let c3 := writeBytes c2 8 data
  writeBytes c3 (8 + len) (be32 (crc32 ((c3.drop 4).take (4 + len))))

/-- The buffer-writing `makeChunk` produces exactly the specification's
framing: the CRC is computed over type and data only, never the length. -/
lemma makeChunk_eq (typeBytes data : List ℕ) (ht : typeBytes.length = 4) :
    makeChunk typeBytes data = framedChunkSpec typeBytes data := by
  simp only [makeChunk, framedChunkSpec]
  rw [show (4 + 4 + data.length + 4) = 4 + (4 + (data.length + 4)) by ring,
    List.replicate_add, List.replicate_add, List.replicate_add]
  rw [writeBytes_zero _ _ _ (by simp [be32])]
  rw [writeBytes_at (be32 data.length) (List.replicate 4 0) _ typeBytes 4
    (be32_length data.length).symm (by simp [ht])]
  rw [show be32 data.length ++ (typeBytes ++ (List.replicate data.length (0:ℕ) ++
    List.replicate 4 0)) = (be32 data.length ++ typeBytes) ++
    (List.replicate data.length 0 ++ List.replicate 4 0) from
    (List.append_assoc _ _ _).symm]
  rw [writeBytes_at (be32 data.length ++ typeBytes) (List.replicate data.length 0)
    (List.replicate 4 0) data 8 (by simp [be32, ht]) (by simp)]
  have hcrc : ((((be32 data.length ++ typeBytes) ++ (data ++ List.replicate 4 0)).drop 4).take
      (4 + data.length)) = typeBytes ++ data := by
    rw [List.append_assoc (be32 data.length) typeBytes]
    rw [List.drop_left' (be32_length data.length)]
    rw [show typeBytes ++ (data ++ List.replicate 4 (0:ℕ)) =
      (typeBytes ++ data) ++ List.replicate 4 0 from (List.append_assoc _ _ _).symm]
    exact List.take_left' (by simp [ht])
  rw [hcrc]
  rw [show (be32 data.length ++ typeBytes) ++ (data ++ List.replicate 4 (0:ℕ)) =
    ((be32 data.length ++ typeBytes) ++ data) ++ (List.replicate 4 0 ++ []) by
    rw [List.append_nil]
    exact (List.append_assoc _ _ _).symm]
  rw [writeBytes_at ((be32 data.length ++ typeBytes) ++ data) (List.replicate 4 0) []
    (be32 (crc32 (typeBytes ++ data))) (8 + data.length)
    (by simp [be32, ht]; omega) (by simp [be32])]
  simp [List.append_assoc]

def ihdrType : List ℕ := [73, 72, 68, 82]

def cicpType : List ℕ := [99, 73, 67, 80]

def chrmType : List ℕ := [99, 72, 82, 77]

def iccpType : List ℕ := [105, 67, 67, 80]

def idatType : List ℕ := [73, 68, 65, 84]

def iendType : List ℕ := [73, 69, 78, 68]

/-- IHDR payload: width and height as big-endian u32, bit depth 16,
color type 2 (RGB), compression 0, filter 0, interlace 0 — written into
a 13-byte buffer as the source does. -/
def ihdrData (w h : ℕ) : List ℕ :=
  writeBytes (writeBytes (writeBytes (List.replicate 13 0) 0 (be32 w)) 4 (be32 h)) 8
    [16, 2, 0, 0, 0]

lemma ihdrData_eq (w h : ℕ) : ihdrData w h = be32 w ++ be32 h ++ [16, 2, 0, 0, 0] := by
  unfold ihdrData
  rw [show (13:ℕ) = 4 + (4 + 5) by norm_num, List.replicate_add, List.replicate_add]
  rw [writeBytes_zero _ _ _ (by simp [be32])]
  rw [writeBytes_at (be32 w) (List.replicate 4 0) _ (be32 h) 4 (be32_length w).symm
    (by simp [be32])]
  rw [show be32 w ++ (be32 h ++ List.replicate 5 (0:ℕ)) =
    (be32 w ++ be32 h) ++ (List.replicate 5 0 ++ []) by
    rw [List.append_nil]
    exact (List.append_assoc _ _ _).symm]
  rw [writeBytes_at (be32 w ++ be32 h) (List.replicate 5 0) [] [16, 2, 0, 0, 0] 8
    (by simp [be32]) (by simp)]
  simp [List.append_assoc]

def makeIHDR (w h : ℕ) : List ℕ := makeChunk ihdrType (ihdrData w h)

/-- cICP payload: BT.2020 primaries (9), PQ transfer (16), identity
matrix (0), full range (1). -/
def makeCICP : List ℕ := makeChunk cicpType [9, 16, 0, 1]

def chrmVals : List ℕ := [31270, 32900, 70800, 29200, 17000, 79700, 13100, 4600]

/-- cHRM payload: the eight `u32 BE` chromaticity values written at
offsets `i*4` into a 32-byte buffer (the source's `forEach`). -/
def chrmData : List ℕ :=
  chrmVals.enum.foldl (fun acc p => writeBytes acc (p.1 * 4) (be32 p.2))
    (List.replicate 32 0)

def makeCHRM : List ℕ := makeChunk chrmType chrmData

def iccpNameBytes : List ℕ := [82, 101, 99, 50, 48, 50, 48, 45, 80, 81]

/-- iCCP payload: profile name, NUL separator, compression method 0,
then the deflate-compressed profile, written into a zero buffer. -/
def iccpData (compressed : List ℕ) : List ℕ :=
  writeBytes
    (writeBytes
      (writeBytes (writeBytes (List.replicate (10 + 2 + compressed.length) 0) 0 iccpNameBytes)
        10 [0])
      11 [0])
    12 compressed

lemma iccpData_eq (compressed : List ℕ) :
    iccpData compressed = iccpNameBytes ++ [0, 0] ++ compressed := by
  unfold iccpData
  rw [show (10 + 2 + compressed.length) = 10 + (1 + (1 + compressed.length)) by ring,
    List.replicate_add, List.replicate_add, List.replicate_add]
  rw [writeBytes_zero _ _ _ (by simp [iccpNameBytes])]
  rw [writeBytes_at iccpNameBytes (List.replicate 1 0) _ [0] 10 (by simp [iccpNameBytes])
    (by simp)]
  rw [show iccpNameBytes ++ ([0] ++ (List.replicate 1 (0:ℕ) ++
    List.replicate compressed.length 0)) = (iccpNameBytes ++ [0]) ++
    (List.replicate 1 0 ++ List.replicate compressed.length 0) from
    (List.append_assoc _ _ _).symm]
  rw [writeBytes_at (iccpNameBytes ++ [0]) (List.replicate 1 0) _ [0] 11
    (by simp [iccpNameBytes]) (by simp)]
  rw [show (iccpNameBytes ++ [0]) ++ ([0] ++ List.replicate compressed.length (0:ℕ)) =
    ((iccpNameBytes ++ [0]) ++ [0]) ++ (List.replicate compressed.length 0 ++ []) by
    rw [List.append_nil]
    exact (List.append_assoc _ _ _).symm]
  rw [writeBytes_at ((iccpNameBytes ++ [0]) ++ [0]) (List.replicate compressed.length 0) []
    compressed 12 (by simp [iccpNameBytes]) (by simp)]
  simp [List.append_assoc]

def makeICCP (deflate : ℕ → List ℕ → List ℕ) (icc : List ℕ) : List ℕ :=
  makeChunk iccpType (iccpData (deflate 9 icc))

/-- Big-endian u16 bytes of the three channels of one pixel. -/
def pixelBytes (r g b : ℕ) : List ℕ :=
  [r / 256 % 256, r % 256, g / 256 % 256, g % 256, b / 256 % 256, b % 256]

/-- The raw IDAT byte stream: per scanline one `None` filter byte then
`width` big-endian RGB16 pixels, reading the PQ buffer sequentially. -/
def idatRaw (w h : ℕ) (px : List ℕ) : List ℕ :=
  (List.range h).flatMap fun y =>
    0 :: ((List.range w).flatMap fun x =>
      pixelBytes (px.getD ((y * w + x) * 3) 0) (px.getD ((y * w + x) * 3 + 1) 0)
        (px.getD ((y * w + x) * 3 + 2) 0))

def makeIDAT (w h : ℕ) (px : List ℕ) (lvl : ℕ) (deflate : ℕ → List ℕ → List ℕ) : List ℕ :=
  makeChunk idatType (deflate lvl (idatRaw w h px))

def makeIEND : List ℕ := makeChunk iendType []

/-- The final assembly loop: write each part at the running offset into
the pre-sized zero buffer. -/
def assembleAux : List (List ℕ) → List ℕ → ℕ → List ℕ
  | [], acc, _ => acc
  | c :: rest, acc, off => assembleAux rest (writeBytes acc off c) (off + c.length)

/-- `encodePNG`: signature, then IHDR, cICP, cHRM, iCCP, IDAT, IEND,
assembled into one buffer.  `deflate` abstracts the selected compression
backend (level-indexed), `icc` the fetched ICC profile bytes. -/
def encodePNG (w h : ℕ) (px : List ℕ) (lvl : ℕ) (deflate : ℕ → List ℕ → List ℕ)
    (icc : List ℕ) : List ℕ :=
  let chunks := [makeIHDR w h, makeCICP, makeCHRM, makeICCP deflate icc,
    makeIDAT w h px lvl deflate, makeIEND]
  let totalSize := PNG_SIGNATURE.length + (chunks.map List.length).sum
  assembleAux (PNG_SIGNATURE :: chunks) (List.replicate totalSize 0) 0

lemma assembleAux_join : ∀ (parts : List (List ℕ)) (done : List ℕ),
    assembleAux parts (done ++ List.replicate ((parts.map List.length).sum) 0) done.length =
      done ++ parts.flatten := by
  intro parts
  induction parts with
  | nil =>
      intro done
      simp [assembleAux]
  | cons c rest ih =>
      intro done
      simp only [assembleAux, List.map_cons, List.sum_cons, List.flatten_cons]
      rw [List.replicate_add]
      rw [writeBytes_at done (List.replicate c.length 0)
        (List.replicate ((rest.map List.length).sum) 0) c done.length rfl (by simp)]
      rw [show done ++ (c ++ List.replicate ((rest.map List.length).sum) (0:ℕ)) =
        (done ++ c) ++ List.replicate ((rest.map List.length).sum) 0 from
        (List.append_assoc _ _ _).symm]
      rw [show done.length + c.length = (done ++ c).length from
        (List.length_append _ _).symm]
      rw [ih (done ++ c)]
      simp [List.append_assoc]

lemma encodePNG_eq_concat (w h : ℕ) (px : List ℕ) (lvl : ℕ)
    (deflate : ℕ → List ℕ → List ℕ) (icc : List ℕ) :
    encodePNG w h px lvl deflate icc =
      PNG_SIGNATURE ++ makeIHDR w h ++ makeCICP ++ makeCHRM ++ makeICCP deflate icc ++
        makeIDAT w h px lvl deflate ++ makeIEND := by
  have hasm := assembleAux_join (PNG_SIGNATURE :: [makeIHDR w h, makeCICP, makeCHRM,
    makeICCP deflate icc, makeIDAT w h px lvl deflate, makeIEND]) []
  exact hasm.trans (by simp [List.append_assoc])

/-- C1.  For every width, height, PQ pixel buffer, compression level,
deflate backend and ICC profile, `encodePNG` emits exactly the 8-byte
signature followed by the six chunks IHDR, cICP, cHRM, iCCP, IDAT, IEND
in that order, each framed as big-endian u32 length, 4-byte type, data,
and the CRC32 of type‖data (never covering the length); the cICP data is
exactly `9,16,0,1`; the cHRM data is the eight listed big-endian u32
chromaticity values; and the IHDR data is the big-endian dimensions
followed by depth 16, color type 2 and zero compression/filter/interlace
bytes. -/
theorem encodePNG_chunk_layout :
    ∀ (w h : ℕ) (px : List ℕ) (lvl : ℕ) (deflate : ℕ → List ℕ → List ℕ) (icc : List ℕ),
      encodePNG w h px lvl deflate icc =
        PNG_SIGNATURE ++
        framedChunkSpec ihdrType (ihdrData w h) ++
        framedChunkSpec cicpType [9, 16, 0, 1] ++
        framedChunkSpec chrmType (be32 31270 ++ be32 32900 ++ be32 70800 ++ be32 29200 ++
          be32 17000 ++ be32 79700 ++ be32 13100 ++ be32 4600) ++
        framedChunkSpec iccpType (iccpNameBytes ++ [0, 0] ++ deflate 9 icc) ++
        framedChunkSpec idatType (deflate lvl (idatRaw w h px)) ++
        framedChunkSpec iendType [] ∧
      ihdrData w h = be32 w ++ be32 h ++ [16, 2, 0, 0, 0] := by
  intro w h px lvl deflate icc
  constructor
  · rw [encodePNG_eq_concat]
    rw [show makeIHDR w h = framedChunkSpec ihdrType (ihdrData w h) from
      makeChunk_eq _ _ rfl]
    rw [show makeCICP = framedChunkSpec cicpType [9, 16, 0, 1] from makeChunk_eq _ _ rfl]
    rw [show makeCHRM = framedChunkSpec chrmType (be32 31270 ++ be32 32900 ++ be32 70800 ++
      be32 29200 ++ be32 17000 ++ be32 79700 ++ be32 13100 ++ be32 4600) from by
      rw [show makeCHRM = framedChunkSpec chrmType chrmData from makeChunk_eq _ _ rfl]
      rw [show chrmData = be32 31270 ++ be32 32900 ++ be32 70800 ++ be32 29200 ++
        be32 17000 ++ be32 79700 ++ be32 13100 ++ be32 4600 from by decide]]
    rw [show makeICCP deflate icc =
      framedChunkSpec iccpType (iccpNameBytes ++ [0, 0] ++ deflate 9 icc) from by
      rw [show makeICCP deflate icc = framedChunkSpec iccpType (iccpData (deflate 9 icc))
        from makeChunk_eq _ _ rfl]
      rw [iccpData_eq]]
    rw [show makeIDAT w h px lvl deflate =
      framedChunkSpec idatType (deflate lvl (idatRaw w h px)) from makeChunk_eq _ _ rfl]
    rw [show makeIEND = framedChunkSpec iendType [] from makeChunk_eq _ _ rfl]
  · exact ihdrData_eq w h

/-! ### `encode-png.ts`: the per-backend ICC-profile chunk cache -/

/-- The two supported compression backends. -/
inductive CompressionBackend where
  | fflate
  | compressionStream
deriving DecidableEq

/-- Observable state of `cachedICCPChunkPromises`: `entries` is the set of
map keys (one in-flight-or-settled promise per backend), `started` is the
log of fetch-and-compress computations actually begun. -/
structure ICCPCacheState where
  entries : List CompressionBackend
  started : List CompressionBackend
deriving DecidableEq

/-- One call of `makeICCPWithBackend`: `get` and, on a miss, `set` run in
the same synchronous slice (no `await` separates them, and JavaScript is
single-threaded), so check-and-set is one atomic step.  On a hit the call
returns the cached promise; on a miss it starts exactly one computation
and caches its promise before yielding. -/
def makeICCPWithBackendStep (s : ICCPCacheState) (b : CompressionBackend) : ICCPCacheState :=
  if b ∈ s.entries then s else ⟨b :: s.entries, b :: s.started⟩

/-- A sequence of `encodePNG`/`makeICCPWithBackend` calls against the
initially empty module-level cache. -/
def runICCPCalls (calls : List CompressionBackend) : ICCPCacheState :=
  calls.foldl makeICCPWithBackendStep ⟨[], []⟩

lemma iccpStep_entries_mono (s : ICCPCacheState) (c b : CompressionBackend)
    (h : b ∈ s.entries) : b ∈ (makeICCPWithBackendStep s c).entries := by
  unfold makeICCPWithBackendStep
  split
  · exact h
  · exact List.mem_cons_of_mem _ h

lemma iccpFold_count_of_mem (calls : List CompressionBackend) :
    ∀ (s : ICCPCacheState) (b : CompressionBackend), b ∈ s.entries →
      ((calls.foldl makeICCPWithBackendStep s).started.count b) = s.started.count b := by
  induction calls with
  | nil => intro s b _; rfl
  | cons c rest ih =>
      intro s b h
      rw [List.foldl_cons, ih _ b (iccpStep_entries_mono s c b h)]
      unfold makeICCPWithBackendStep
      split
      · rfl
      · rename_i hc
        have hcb : ¬ (c = b) := fun hcb => hc (hcb ▸ h)
        simp [List.count_cons, hcb]

lemma iccpFold_count_of_not_mem (calls : List CompressionBackend) :
    ∀ (s : ICCPCacheState) (b : CompressionBackend), b ∉ s.entries →
      ((calls.foldl makeICCPWithBackendStep s).started.count b) =
        s.started.count b + (if b ∈ calls then 1 else 0) := by
  induction calls with
  | nil => intro s b _; simp
  | cons c rest ih =>
      intro s b h
      rw [List.foldl_cons]
      by_cases hcb : c = b
      · subst hcb
        have hstep : makeICCPWithBackendStep s c = ⟨c :: s.entries, c :: s.started⟩ := by
          unfold makeICCPWithBackendStep
          rw [if_neg h]
        rw [hstep, iccpFold_count_of_mem rest _ c (List.mem_cons_self _ _)]
        simp [List.count_cons]
      · have hb2 : b ∉ (makeICCPWithBackendStep s c).entries := by
          unfold makeICCPWithBackendStep
          split
          · exact h
          · intro hmem
            rcases List.mem_cons.mp hmem with h1 | h1
            · exact hcb h1.symm
            · exact h h1
        rw [ih _ b hb2]
        have hst : (makeICCPWithBackendStep s c).started.count b = s.started.count b := by
          unfold makeICCPWithBackendStep
          split
          · rfl
          · simp [List.count_cons, hcb]
        rw [hst]
        have hmem : (b ∈ c :: rest) ↔ (b ∈ rest) := by
          constructor
          · intro h1
            rcases List.mem_cons.mp h1 with h2 | h2
            · exact absurd h2.symm hcb
            · exact h2
          · exact List.mem_cons_of_mem _
        by_cases hr : b ∈ rest
        · rw [if_pos hr, if_pos (hmem.mpr hr)]
        · rw [if_neg hr, if_neg (fun h1 => hr (hmem.mp h1))]

/-- C3.  Across any sequence of `encodePNG` calls, the ICC-profile
fetch-and-compress computation is started exactly once per backend that
occurs in the sequence (and never for a backend that does not occur):
repeated calls with the same backend share one computation, a different
backend gets its own independent one, and — because the cache performs
its check-and-set synchronously before any `await` — calls that overlap
an in-flight computation join it rather than starting a second. -/
theorem iccp_cache_one_computation_per_backend (calls : List CompressionBackend)
    (b : CompressionBackend) :
    ((runICCPCalls calls).started.count b) = if b ∈ calls then 1 else 0 := by
  have h := iccpFold_count_of_not_mem calls ⟨[], []⟩ b (by simp)
  simpa using h

/-! ### `worker-runtime.ts`: request validation and the worker runtime -/

/-- A JavaScript numeric request field as the validator sees it:
absent (`undefined`), a finite number, or present but unusable
(`NaN`, `±Infinity`, or a value of a non-number type). -/
inductive JSNum where
  | absent
  | num (q : ℚ)
  | bad
deriving DecidableEq

/-- `isFiniteNumber`: `typeof value === 'number' && Number.isFinite(value)`. -/
def isFiniteNumberM : JSNum → Bool
  | .num _ => true
  | _ => false

/-- The numeric value of a field known to hold a finite number. -/
def numValue : JSNum → ℚ
  | .num q => q
  | _ => 0

/-- `isPositiveInt`: `Number.isInteger(value) && Number(value) > 0`
(false on `undefined`, `NaN` and `±Infinity`). -/
def isPositiveIntM : JSNum → Bool
  | .num q => decide (q.den = 1 ∧ 0 < q)
  | _ => false

/-- The natural-number value of a field that passed `isPositiveInt`. -/
def jsToNat : JSNum → ℕ
  | .num q => q.num.toNat
  | _ => 0

/-- The `compressionBackend` field: one of the two members of
`VALID_COMPRESSION_BACKENDS`, or any other (unknown) string. -/
inductive BackendField where
  | fflate
  | compressionStream
  | unknownBackend
deriving DecidableEq

/-- Membership in `VALID_COMPRESSION_BACKENDS`. -/
def validBackend : BackendField → Bool
  | .unknownBackend => false
  | _ => true

/-- The preview `output` field: `'sdr-rgba'`, `'hdr-png'`, or any other
(unknown) string. -/
inductive OutputField where
  | sdrRgba
  | hdrPng
  | unknownOutput
deriving DecidableEq

/-- The error codes of `worker-runtime.ts`. -/
inductive RuntimeErrorCode where
  | DECODE_UNSUPPORTED
  | BAD_INPUT
  | INTERNAL
deriving DecidableEq

/-- The fields shared by convert and preview requests.  `file` is `some b`
when a `file` payload is present, with `b` recording whether it is a
`Blob`; `pixels` is `some n` when a pixel buffer of length `n` is
present. -/
structure SharedReq where
  id : JSNum
  boost : JSNum
  file : Option Bool
  pixels : Option ℕ
  width : JSNum
  height : JSNum
deriving DecidableEq

/-- A `WorkerConvertRequest` (fields relevant to validation and the
pipeline; `lookControls` is the optional partial look-controls object). -/
structure ConvertReq extends SharedReq where
  gamma : JSNum
  idatCompressionLevel : JSNum
  compressionBackend : Option BackendField
  lookControls : Option LookInput

/-- A `WorkerPreviewRequest`. -/
structure PreviewReq extends SharedReq where
  gamma : JSNum
  lookControls : Option LookInput
  output : Option OutputField
  previewMaxLongEdge : JSNum

/-- A `WorkerRequestMessage`; `unknownRequest` is a message whose `type`
tag is none of `cancel`, `convert`, `preview`. -/
inductive WorkerRequestMessage where
  | cancel (id : JSNum)
  | convert (r : ConvertReq)
  | preview (r : PreviewReq)
  | unknownRequest (id : JSNum)

/-- `validatePixelPayload`: skipped when a `file` payload is present;
otherwise the pixel buffer must exist, `width` and `height` must be
positive integers, and the buffer length must be exactly
`width * height * 4`. -/
def validatePixelPayload (r : SharedReq) : Except RuntimeErrorCode Unit :=
  if r.file.isSome then .ok ()
  else if !r.pixels.isSome || !isPositiveIntM r.width || !isPositiveIntM r.height then
    .error .BAD_INPUT
  else if r.pixels.getD 0 = jsToNat r.width * jsToNat r.height * 4 then .ok ()
  else .error .BAD_INPUT

/-- `validateSharedRequestFields`: id a positive integer, boost a finite
non-negative number, `file` (when present) a `Blob`, then the pixel
payload. -/
def validateSharedRequestFields (r : SharedReq) : Except RuntimeErrorCode Unit :=
  if !isPositiveIntM r.id then .error .BAD_INPUT
  else if !isFiniteNumberM r.boost || decide (numValue r.boost < 0) then .error .BAD_INPUT
  else if r.file = some false then .error .BAD_INPUT
  else validatePixelPayload r

/-- `validateConvertRequest`: the shared checks, then gamma (when given,
finite and positive), `idatCompressionLevel` (when given, finite and in
`[0, 9]`), and `compressionBackend` (when given, a known backend). -/
def validateConvertRequest (r : ConvertReq) : Except RuntimeErrorCode Unit :=
  match validateSharedRequestFields r.toSharedReq with
  | .error c => .error c
  | .ok _ =>
    if r.gamma ≠ .absent ∧ (!isFiniteNumberM r.gamma || decide (numValue r.gamma ≤ 0)) then
      .error .BAD_INPUT
    else if r.idatCompressionLevel ≠ .absent ∧ (!isFiniteNumberM r.idatCompressionLevel ||
        decide (numValue r.idatCompressionLevel < 0) ||
        decide (9 < numValue r.idatCompressionLevel)) then
      .error .BAD_INPUT
    else
      match r.compressionBackend with
      | some b => if validBackend b then .ok () else .error .BAD_INPUT
      | none => .ok ()

/-- `validatePreviewRequest`: the shared checks, then `output` (when
given, one of `sdr-rgba`/`hdr-png`) and `previewMaxLongEdge` (when
given, finite and positive). -/
def validatePreviewRequest (r : PreviewReq) : Except RuntimeErrorCode Unit :=
  match validateSharedRequestFields r.toSharedReq with
  | .error c => .error c
  | .ok _ =>
    match r.output with
    | some .unknownOutput => .error .BAD_INPUT
    | _ =>
      if r.previewMaxLongEdge ≠ .absent ∧ (!isFiniteNumberM r.previewMaxLongEdge ||
          decide (numValue r.previewMaxLongEdge ≤ 0)) then
        .error .BAD_INPUT
      else .ok ()

/-- `validateWorkerRequest`: dispatch on the message type; a cancel
message only needs a positive-integer id; an unknown type is rejected. -/
def validateWorkerRequest : WorkerRequestMessage → Except RuntimeErrorCode Unit
  | .cancel id => if !isPositiveIntM id then .error .BAD_INPUT else .ok ()
  | .convert r => validateConvertRequest r
  | .preview r => validatePreviewRequest r
  | .unknownRequest _ => .error .BAD_INPUT

/-- The units of pipeline work a request can trigger. -/
inductive Phase where
  | decodePhase
  | downscalePhase
  | transformPhase
  | encodePhase
deriving DecidableEq

/-- The `type` tag of a worker response. -/
inductive ResponseType where
  | result
  | previewResult
deriving DecidableEq

/-- A `WorkerResponseMessage`: its type tag, request id, `ok` flag,
error code (for `ok:false`), and success payloads. -/
structure ResponseM where
  rtype : ResponseType
  id : ℚ
  ok : Bool
  code : Option RuntimeErrorCode
  pngData : Option (List ℕ)
  pixels : Option (List ℤ)

/-- `toWorkerErrorResponse` (every error thrown in the model carries a
code, matching `code ?? 'INTERNAL'`). -/
def toWorkerErrorResponseM (rt : ResponseType) (id : ℚ) (c : RuntimeErrorCode) : ResponseM :=
  ⟨rt, id, false, some c, none, none⟩

/-- `WorkerRuntime.isCancelled`: membership test that consumes the set
entry (`Set.delete`) on a hit. -/
def isCancelledStep (cancelled : List ℚ) (id : ℚ) : Bool × List ℚ :=
  if id ∈ cancelled then (true, cancelled.erase id) else (false, cancelled)

/-- `getOrCreatePqBuffer` / `getOrCreatePreviewBuffer`: reuse the held
buffer when its length matches, else allocate a fresh zeroed one. -/
def getOrCreateBufferM (buf : List ℤ) (needed : ℕ) : List ℤ :=
  if buf.length = needed then buf else List.replicate needed 0

/-- `resolveLookControls` in `worker-runtime.ts`: spread the request's
`gamma` (when it is a number) under the request's partial look-controls,
then normalize.  A present non-finite gamma is modelled as absent; it can
only reach this point on the preview lane. -/
noncomputable def resolveLookControlsM (gamma : JSNum) (lc : Option LookInput) : LookControls :=
  let base := lc.getD emptyLookInput
  normalizeLookControls { base with gamma :=
    match base.gamma with
    | some g => some g
    | none => match gamma with | .num q => some ((q : ℝ)) | _ => none }

/-- The fully-resolved controls record, as the partial object the worker
passes to `processPixels`/`processPreviewPixels` (every field present). -/
def lookInputOfControls (c : LookControls) : LookInput :=
  ⟨some c.exposure, some c.saturation, some c.temperature, some c.tint, some c.gamma,
   some c.contrast, some c.blacks, some c.whites, some c.clarity,
   some c.highlightSaturation, some c.highlightRollOff, some c.shadowLift,
   some c.shadowGlow, some c.vibrance⟩

/-- `normalizePreviewMaxLongEdge`: default 1280 when missing or
non-positive, else round and clamp to `[64, 4096]`. -/
noncomputable def normalizePreviewMaxLongEdgeM (v : JSNum) : ℤ :=
  match v with
  | .num q => if q ≤ 0 then 1280 else max 64 (min 4096 (jsRound ((q : ℝ))))
  | _ => 1280

/-- `WorkerRuntime.handleConvert` after validation has passed.  `dec` is
the decode outcome (environment-dependent), `deflate`/`icc`/`lvl`/`mode`
abstract the compression backend and PQ strategy, `buf` is the runtime's
reusable PQ buffer.  Returns the response (`none` = silent), the phases
of work performed, and the updated cancelled-id set. -/
noncomputable def handleConvertM (dec : Except RuntimeErrorCode ImageDataM)
    (deflate : ℕ → List ℕ → List ℕ) (icc : List ℕ) (lvl : ℕ) (mode : PQEncodeMode)
    (buf : List ℤ) (r : ConvertReq) (cancelled : List ℚ) :
    Option ResponseM × List Phase × List ℚ :=
  match dec with
  | .error c => (some (toWorkerErrorResponseM .result (numValue r.toSharedReq.id) c),
      [.decodePhase], cancelled)
  | .ok img =>
    let rid := numValue r.toSharedReq.id
    let p1 := isCancelledStep cancelled rid
    if p1.1 then (none, [.decodePhase], p1.2)
    else
      let look := resolveLookControlsM r.gamma r.lookControls
      let pq := processPixels img ((numValue r.toSharedReq.boost : ℝ))
        (lookInputOfControls look) mode
        (some (getOrCreateBufferM buf (img.width * img.height * 3)))
      let p2 := isCancelledStep p1.2 rid
      if p2.1 then (none, [.decodePhase, .transformPhase], p2.2)
      else
        let png := encodePNG img.width img.height (pq.map Int.toNat) lvl deflate icc
        let p3 := isCancelledStep p2.2 rid
        if p3.1 then (none, [.decodePhase, .transformPhase, .encodePhase], p3.2)
        else (some ⟨.result, rid, true, none, some png, none⟩,
          [.decodePhase, .transformPhase, .encodePhase], p3.2)

/-- `WorkerRuntime.handlePreview` after validation has passed.
`downscale` abstracts the canvas-based downscaling step. -/
noncomputable def handlePreviewM (dec : Except RuntimeErrorCode ImageDataM)
    (downscale : ImageDataM → ℤ → ImageDataM) (deflate : ℕ → List ℕ → List ℕ)
    (icc : List ℕ) (lvl : ℕ) (mode : PQEncodeMode) (bufPq bufPrev : List ℤ)
    (r : PreviewReq) (cancelled : List ℚ) :
    Option ResponseM × List Phase × List ℚ :=
  match dec with
  | .error c => (some (toWorkerErrorResponseM .previewResult (numValue r.toSharedReq.id) c),
      [.decodePhase], cancelled)
  | .ok img =>
    let rid := numValue r.toSharedReq.id
    let p1 := isCancelledStep cancelled rid
    if p1.1 then (none, [.decodePhase], p1.2)
    else
      let prevImg := downscale img (normalizePreviewMaxLongEdgeM r.previewMaxLongEdge)
      let p2 := isCancelledStep p1.2 rid
      if p2.1 then (none, [.decodePhase, .downscalePhase], p2.2)
      else
        let look := resolveLookControlsM r.gamma r.lookControls
        match r.output.getD .sdrRgba with
        | .hdrPng =>
          let pq := processPixels prevImg ((numValue r.toSharedReq.boost : ℝ))
            (lookInputOfControls look) mode
            (some (getOrCreateBufferM bufPq (prevImg.width * prevImg.height * 3)))
          let p3 := isCancelledStep p2.2 rid
          if p3.1 then (none, [.decodePhase, .downscalePhase, .transformPhase], p3.2)
          else
            let png := encodePNG prevImg.width prevImg.height (pq.map Int.toNat) lvl deflate icc
            let p4 := isCancelledStep p3.2 rid
            if p4.1 then
              (none, [.decodePhase, .downscalePhase, .transformPhase, .encodePhase], p4.2)
            else (some ⟨.previewResult, rid, true, none, some png, none⟩,
              [.decodePhase, .downscalePhase, .transformPhase, .encodePhase], p4.2)
        | _ =>
          let px := processPreviewPixels prevImg ((numValue r.toSharedReq.boost : ℝ))
            (lookInputOfControls look)
            (some (getOrCreateBufferM bufPrev (prevImg.width * prevImg.height * 4)))
          let p3 := isCancelledStep p2.2 rid
          if p3.1 then (none, [.decodePhase, .downscalePhase, .transformPhase], p3.2)
          else (some ⟨.previewResult, rid, true, none, none, some px⟩,
            [.decodePhase, .downscalePhase, .transformPhase], p3.2)

/-- `WorkerRuntime.handle`: validate first; on a validation error a
cancel message gets no response and convert/preview get an error
response, with no pipeline work performed; on success dispatch. -/
noncomputable def handleM (dec : Except RuntimeErrorCode ImageDataM)
    (downscale : ImageDataM → ℤ → ImageDataM) (deflate : ℕ → List ℕ → List ℕ)
    (icc : List ℕ) (lvl : ℕ) (mode : PQEncodeMode) (bufPq bufPrev : List ℤ)
    (req : WorkerRequestMessage) (cancelled : List ℚ) :
    Option ResponseM × List Phase × List ℚ :=
  match validateWorkerRequest req with
  | .error c =>
    match req with
    | .cancel _ => (none, [], cancelled)
    | .convert r =>
        (some (toWorkerErrorResponseM .result (numValue r.toSharedReq.id) c), [], cancelled)
    | .preview r =>
        (some (toWorkerErrorResponseM .previewResult (numValue r.toSharedReq.id) c), [],
          cancelled)
    | .unknownRequest id => (some (toWorkerErrorResponseM .result (numValue id) c), [], cancelled)
  | .ok _ =>
    match req with
    | .cancel id => (none, [], cancelled.insert (numValue id))
    | .convert r => handleConvertM dec deflate icc lvl mode bufPq r cancelled
    | .preview r => handlePreviewM dec downscale deflate icc lvl mode bufPq bufPrev r cancelled
    | .unknownRequest _ => (none, [], cancelled)

/-! ### The validation rules, stated field by field -/

/-- Boost rule: finite and non-negative. -/
def boostRule (v : JSNum) : Prop := isFiniteNumberM v = true ∧ 0 ≤ numValue v

/-- File rule: a present `file` payload must be a `Blob`. -/
def fileRule (f : Option Bool) : Prop := f ≠ some false

/-- Pixel-payload rule: with no encoded source, the pixel buffer must
exist, width and height must be positive integers, and the buffer length
must equal `width * height * 4`. -/
def pixelRule (r : SharedReq) : Prop :=
  r.file.isSome = true ∨
    (r.pixels.isSome = true ∧ isPositiveIntM r.width = true ∧
      isPositiveIntM r.height = true ∧
      r.pixels.getD 0 = jsToNat r.width * jsToNat r.height * 4)

/-- Gamma rule: absent, or finite and positive. -/
def gammaRule (v : JSNum) : Prop := v = .absent ∨ (isFiniteNumberM v = true ∧ 0 < numValue v)

/-- Compression-level rule: absent, or finite and in `[0, 9]`. -/
def levelRule (v : JSNum) : Prop :=
  v = .absent ∨ (isFiniteNumberM v = true ∧ 0 ≤ numValue v ∧ numValue v ≤ 9)

/-- Backend rule: when given, a member of `VALID_COMPRESSION_BACKENDS`. -/
def backendRule (o : Option BackendField) : Prop := ∀ b, o = some b → validBackend b = true

/-- Preview output rule: when given, `sdr-rgba` or `hdr-png`. -/
def outputRule (o : Option OutputField) : Prop := o ≠ some .unknownOutput

/-- Preview max-long-edge rule: absent, or finite and positive. -/
def maxEdgeRule (v : JSNum) : Prop := v = .absent ∨ (isFiniteNumberM v = true ∧ 0 < numValue v)

/-- The shared field rules. -/
def sharedRules (r : SharedReq) : Prop :=
  isPositiveIntM r.id = true ∧ boostRule r.boost ∧ fileRule r.file ∧ pixelRule r

lemma validatePixelPayload_ok_iff (r : SharedReq) :
    validatePixelPayload r = .ok () ↔ pixelRule r := by
  unfold validatePixelPayload pixelRule
  split_ifs with h1 h2 h3 <;>
    simp_all [Bool.or_eq_true, Bool.not_eq_true', Option.isSome_iff_ne_none]
  intro hp hw hh _
  rcases h2 with (h2 | h2) | h2 <;> simp_all

lemma validateSharedRequestFields_ok_iff (r : SharedReq) :
    validateSharedRequestFields r = .ok () ↔ sharedRules r := by
  unfold validateSharedRequestFields sharedRules boostRule fileRule
  split_ifs with h1 h2 h3 <;>
    simp_all [validatePixelPayload_ok_iff, Bool.or_eq_true, Bool.not_eq_true', not_lt]
  intro hf hb _ _
  rcases h2 with h2 | h2
  · simp_all
  · linarith

lemma validatePixelPayload_code (r : SharedReq) (c : RuntimeErrorCode)
    (h : validatePixelPayload r = .error c) : c = .BAD_INPUT := by
  unfold validatePixelPayload at h
  split_ifs at h <;> simp_all

lemma validateSharedRequestFields_code (r : SharedReq) (c : RuntimeErrorCode)
    (h : validateSharedRequestFields r = .error c) : c = .BAD_INPUT := by
  unfold validateSharedRequestFields at h
  split_ifs at h <;> first
    | exact validatePixelPayload_code r c h
    | simp_all

lemma validateConvertRequest_ok_iff (r : ConvertReq) :
    validateConvertRequest r = .ok () ↔
      (sharedRules r.toSharedReq ∧ gammaRule r.gamma ∧ levelRule r.idatCompressionLevel ∧
        backendRule r.compressionBackend) := by
  unfold validateConvertRequest
  cases hs : validateSharedRequestFields r.toSharedReq with
  | error c =>
      have : ¬ sharedRules r.toSharedReq := by
        rw [← validateSharedRequestFields_ok_iff, hs]
        simp
      simp [this]
  | ok u =>
      cases u
      have hsr : sharedRules r.toSharedReq := (validateSharedRequestFields_ok_iff r.toSharedReq).mp hs
      simp only [hsr, true_and]
      unfold gammaRule levelRule backendRule
      split_ifs with h1 h2
      · constructor
        · intro h; exact absurd h (by simp)
        · intro ⟨hg, _, _⟩
          rcases h1 with ⟨ha, hb⟩
          rcases hg with hg | ⟨hg1, hg2⟩
          · exact ha hg
          · simp only [Bool.or_eq_true, Bool.not_eq_true', decide_eq_true_eq] at hb
            rcases hb with hb | hb
            · rw [hg1] at hb; cases hb
            · exact absurd hg2 (not_lt.mpr hb)
      · constructor
        · intro h; exact absurd h (by simp)
        · intro ⟨_, hl, _⟩
          rcases h2 with ⟨ha, hb⟩
          rcases hl with hl | ⟨hl1, hl2, hl3⟩
          · exact ha hl
          · simp only [Bool.or_eq_true, Bool.not_eq_true', decide_eq_true_eq] at hb
            rcases hb with (hb | hb) | hb
            · rw [hl1] at hb; cases hb
            · exact absurd hl2 (not_le.mpr hb)
            · exact absurd hl3 (not_le.mpr hb)
      · push_neg at h1 h2
        cases hb : r.compressionBackend with
        | none =>
            simp only []
            constructor
            · intro _
              refine ⟨?_, ?_, ?_⟩
              · by_cases hg : r.gamma = .absent
                · exact Or.inl hg
                · right
                  have := h1 hg
                  simp only [ne_eq, Bool.or_eq_true, Bool.not_eq_true', decide_eq_true_eq,
                    not_or, Bool.not_eq_false, not_le] at this
                  tauto
              · by_cases hl : r.idatCompressionLevel = .absent
                · exact Or.inl hl
                · right
                  have := h2 hl
                  simp only [ne_eq, Bool.or_eq_true, Bool.not_eq_true', decide_eq_true_eq,
                    not_or, Bool.not_eq_false, not_lt] at this
                  tauto
              · intro b hbb
                simp at hbb
            · intro _
              trivial
        | some b =>
            simp only []
            split_ifs with hv
            · constructor
              · intro _
                refine ⟨?_, ?_, ?_⟩
                · by_cases hg : r.gamma = .absent
                  · exact Or.inl hg
                  · right
                    have := h1 hg
                    simp only [ne_eq, Bool.or_eq_true, Bool.not_eq_true', decide_eq_true_eq,
                      not_or, Bool.not_eq_false, not_le] at this
                    tauto
                · by_cases hl : r.idatCompressionLevel = .absent
                  · exact Or.inl hl
                  · right
                    have := h2 hl
                    simp only [ne_eq, Bool.or_eq_true, Bool.not_eq_true', decide_eq_true_eq,
                      not_or, Bool.not_eq_false, not_lt] at this
                    tauto
                · intro b2 hbb
                  have hb2 : b = b2 := by
                    injection hbb
                  exact hb2 ▸ hv
              · intro _
                trivial
            · constructor
              · intro h; exact absurd h (by simp)
              · intro ⟨_, _, hbr⟩
                exact absurd (hbr b rfl) hv

lemma validateConvertRequest_code (r : ConvertReq) (c : RuntimeErrorCode)
    (h : validateConvertRequest r = .error c) : c = .BAD_INPUT := by
  unfold validateConvertRequest at h
  cases hs : validateSharedRequestFields r.toSharedReq with
  | error c2 =>
      rw [hs] at h
      have hc : c2 = c := by
        injection h
      exact hc ▸ validateSharedRequestFields_code r.toSharedReq c2 hs
  | ok u =>
      cases u
      rw [hs] at h
      simp only [] at h
      split_ifs at h
      · injection h with h2
        exact h2.symm
      · injection h with h2
        exact h2.symm
      · cases hb : r.compressionBackend with
        | none =>
            rw [hb] at h
            simp at h
        | some b =>
            rw [hb] at h
            simp only [] at h
            split_ifs at h
            all_goals first | exact h.symm | (injection h with h2; exact h2.symm) | simp at h

lemma validatePreviewRequest_ok_iff (r : PreviewReq) :
    validatePreviewRequest r = .ok () ↔
      (sharedRules r.toSharedReq ∧ outputRule r.output ∧ maxEdgeRule r.previewMaxLongEdge) := by
  unfold validatePreviewRequest
  cases hs : validateSharedRequestFields r.toSharedReq with
  | error c =>
      have : ¬ sharedRules r.toSharedReq := by
        rw [← validateSharedRequestFields_ok_iff, hs]
        simp
      simp [this]
  | ok u =>
      cases u
      have hsr : sharedRules r.toSharedReq := (validateSharedRequestFields_ok_iff r.toSharedReq).mp hs
      simp only [hsr, true_and]
      unfold outputRule maxEdgeRule
      cases ho : r.output with
      | none =>
          simp only []
          split_ifs with h1
          · constructor
            · intro h; exact absurd h (by simp)
            · intro ⟨_, he⟩
              rcases h1 with ⟨ha, hb⟩
              rcases he with he | ⟨he1, he2⟩
              · exact ha he
              · simp only [Bool.or_eq_true, Bool.not_eq_true', decide_eq_true_eq] at hb
                rcases hb with hb | hb
                · rw [he1] at hb; cases hb
                · exact absurd he2 (not_lt.mpr hb)
          · push_neg at h1
            constructor
            · intro _
              constructor
              · simp
              · by_cases he : r.previewMaxLongEdge = .absent
                · exact Or.inl he
                · right
                  have := h1 he
                  simp only [ne_eq, Bool.or_eq_true, Bool.not_eq_true', decide_eq_true_eq,
                    not_or, Bool.not_eq_false, not_le] at this
                  tauto
            · intro _; trivial
      | some ob =>
          cases ob with
          | unknownOutput =>
              simp only []
              constructor
              · intro h; exact absurd h (by simp)
              · intro ⟨h2, _⟩
                exact absurd rfl h2
          | sdrRgba =>
              simp only []
              split_ifs with h1
              · constructor
                · intro h; exact absurd h (by simp)
                · intro ⟨_, he⟩
                  rcases h1 with ⟨ha, hb⟩
                  rcases he with he | ⟨he1, he2⟩
                  · exact ha he
                  · simp only [Bool.or_eq_true, Bool.not_eq_true', decide_eq_true_eq] at hb
                    rcases hb with hb | hb
                    · rw [he1] at hb; cases hb
                    · exact absurd he2 (not_lt.mpr hb)
              · push_neg at h1
                constructor
                · intro _
                  constructor
                  · simp [ho]
                  · by_cases he : r.previewMaxLongEdge = .absent
                    · exact Or.inl he
                    · right
                      have := h1 he
                      simp only [ne_eq, Bool.or_eq_true, Bool.not_eq_true', decide_eq_true_eq,
                        not_or, Bool.not_eq_false, not_le] at this
                      tauto
                · intro _; trivial
          | hdrPng =>
              simp only []
              split_ifs with h1
              · constructor
                · intro h; exact absurd h (by simp)
                · intro ⟨_, he⟩
                  rcases h1 with ⟨ha, hb⟩
                  rcases he with he | ⟨he1, he2⟩
                  · exact ha he
                  · simp only [Bool.or_eq_true, Bool.not_eq_true', decide_eq_true_eq] at hb
                    rcases hb with hb | hb
                    · rw [he1] at hb; cases hb
                    · exact absurd he2 (not_lt.mpr hb)
              · push_neg at h1
                constructor
                · intro _
                  constructor
                  · simp [ho]
                  · by_cases he : r.previewMaxLongEdge = .absent
                    · exact Or.inl he
                    · right
                      have := h1 he
                      simp only [ne_eq, Bool.or_eq_true, Bool.not_eq_true', decide_eq_true_eq,
                        not_or, Bool.not_eq_false, not_le] at this
                      tauto
                · intro _; trivial

lemma validatePreviewRequest_code (r : PreviewReq) (c : RuntimeErrorCode)
    (h : validatePreviewRequest r = .error c) : c = .BAD_INPUT := by
  unfold validatePreviewRequest at h
  cases hs : validateSharedRequestFields r.toSharedReq with
  | error c2 =>
      rw [hs] at h
      have hc : c2 = c := by
        injection h
      exact hc ▸ validateSharedRequestFields_code r.toSharedReq c2 hs
  | ok u =>
      cases u
      rw [hs] at h
      cases ho : r.output with
      | none =>
          rw [ho] at h
          simp only [] at h
          split_ifs at h
          all_goals first | exact h.symm | (injection h with h2; exact h2.symm) | simp at h
      | some ob =>
          cases ob with
          | sdrRgba =>
              rw [ho] at h
              simp only [] at h
              split_ifs at h
              all_goals first | exact h.symm | (injection h with h2; exact h2.symm) | simp at h
          | hdrPng =>
              rw [ho] at h
              simp only [] at h
              split_ifs at h
              all_goals first | exact h.symm | (injection h with h2; exact h2.symm) | simp at h
          | unknownOutput =>
              rw [ho] at h
              simp only [] at h
              first | exact h.symm | (injection h with h2; exact h2.symm)

lemma validateWorkerRequest_code (req : WorkerRequestMessage) (c : RuntimeErrorCode)
    (h : validateWorkerRequest req = .error c) : c = .BAD_INPUT := by
  cases req with
  | cancel id =>
      simp only [validateWorkerRequest] at h
      split_ifs at h <;> simp_all
  | convert r => exact validateConvertRequest_code r c h
  | preview r => exact validatePreviewRequest_code r c h
  | unknownRequest id =>
      simp only [validateWorkerRequest] at h
      first | exact h.symm | (injection h with h2; exact h2.symm)

/-- C6.  The worker validates a request before any decode, transform, or
encode work: on a validation failure `handle` performs no pipeline phase
and answers convert/preview requests with an `ok:false` response carrying
the validation code, every validation error carries code `BAD_INPUT`, a
convert (resp. preview) request validates successfully exactly when every
listed field rule holds — id a positive integer, boost finite and
non-negative, a present file a `Blob`, pixel-buffer length equal to
`width*height*4` when no encoded source is given, gamma (when given)
finite and positive, compression level (when given) finite and in
`[0, 9]`, backend (when given) known, preview output (when given) known,
preview max long edge (when given) finite and positive — and, in
particular, a preview request carrying pixels with `width = 0` is
rejected with `BAD_INPUT`. -/
theorem worker_validation_first_and_bad_input :
    (∀ (req : WorkerRequestMessage) (c : RuntimeErrorCode),
        validateWorkerRequest req = .error c → c = .BAD_INPUT) ∧
    (∀ dec downscale deflate icc lvl mode bufPq bufPrev (r : ConvertReq) s c,
        validateWorkerRequest (.convert r) = .error c →
        handleM dec downscale deflate icc lvl mode bufPq bufPrev (.convert r) s =
          (some (toWorkerErrorResponseM .result (numValue r.toSharedReq.id) c), [], s)) ∧
    (∀ dec downscale deflate icc lvl mode bufPq bufPrev (r : PreviewReq) s c,
        validateWorkerRequest (.preview r) = .error c →
        handleM dec downscale deflate icc lvl mode bufPq bufPrev (.preview r) s =
          (some (toWorkerErrorResponseM .previewResult (numValue r.toSharedReq.id) c), [],
            s)) ∧
    (∀ r : ConvertReq,
        validateWorkerRequest (.convert r) = .ok () ↔
          (sharedRules r.toSharedReq ∧ gammaRule r.gamma ∧
            levelRule r.idatCompressionLevel ∧ backendRule r.compressionBackend)) ∧
    (∀ r : PreviewReq,
        validateWorkerRequest (.preview r) = .ok () ↔
          (sharedRules r.toSharedReq ∧ outputRule r.output ∧
            maxEdgeRule r.previewMaxLongEdge)) ∧
    (∀ r : PreviewReq, r.toSharedReq.file = none → r.toSharedReq.width = .num 0 →
        validateWorkerRequest (.preview r) = .error .BAD_INPUT) := by
  refine ⟨validateWorkerRequest_code, ?_, ?_, ?_, ?_, ?_⟩
  · intro dec downscale deflate icc lvl mode bufPq bufPrev r s c h
    simp only [handleM, h]
  · intro dec downscale deflate icc lvl mode bufPq bufPrev r s c h
    simp only [handleM, h]
  · intro r
    exact validateConvertRequest_ok_iff r
  · intro r
    exact validatePreviewRequest_ok_iff r
  · intro r hf hw
    cases hv : validateWorkerRequest (.preview r) with
    | error c =>
        have hc := validateWorkerRequest_code _ c hv
        rw [hc]
    | ok u =>
        cases u
        exfalso
        have hv2 : validatePreviewRequest r = .ok () := hv
        have hr := (validatePreviewRequest_ok_iff r).mp hv2
        rcases hr.1 with ⟨_, _, _, hpix⟩
        rcases hpix with hpix | ⟨_, hwid, _, _⟩
        · rw [hf] at hpix
          simp at hpix
        · rw [hw] at hwid
          norm_num [isPositiveIntM] at hwid

/-- A preview request carrying a pixel payload with `width = 0`. -/
def previewWidthZeroReq : PreviewReq :=
  { toSharedReq := ⟨.num 1, .num 0, none, some 0, .num 0, .num 1⟩,
    gamma := .absent, lookControls := none, output := none, previewMaxLongEdge := .absent }

/-- C6 witness: the width-zero preview request is rejected with
`BAD_INPUT`. -/
theorem worker_validation_first_and_bad_input_witness :
    validateWorkerRequest (.preview previewWidthZeroReq) = .error .BAD_INPUT :=
  worker_validation_first_and_bad_input.2.2.2.2.2 previewWidthZeroReq rfl rfl

/-- C7.  For a (validated) convert or preview job whose id is in the
cancelled set when the job polls a cancellation checkpoint, the runtime
produces no response at all — neither success nor error: the first
checkpoint after decode consumes the mark and the handler returns
`null`. -/
theorem runtime_cancellation_silent :
    (∀ (img : ImageDataM) downscale deflate icc lvl mode bufPq bufPrev (r : ConvertReq)
        (s : List ℚ), validateWorkerRequest (.convert r) = .ok () →
        numValue r.toSharedReq.id ∈ s →
        (handleM (.ok img) downscale deflate icc lvl mode bufPq bufPrev (.convert r) s).1 =
          none) ∧
    (∀ (img : ImageDataM) downscale deflate icc lvl mode bufPq bufPrev (r : PreviewReq)
        (s : List ℚ), validateWorkerRequest (.preview r) = .ok () →
        numValue r.toSharedReq.id ∈ s →
        (handleM (.ok img) downscale deflate icc lvl mode bufPq bufPrev (.preview r) s).1 =
          none) := by
  constructor
  · intro img downscale deflate icc lvl mode bufPq bufPrev r s hv hmem
    simp [handleM, hv, handleConvertM, isCancelledStep, hmem]
  · intro img downscale deflate icc lvl mode bufPq bufPrev r s hv hmem
    simp [handleM, hv, handlePreviewM, isCancelledStep, hmem]

/-- A well-formed convert request with id 1 over a 1×1 pixel payload. -/
def cancelConvertReq : ConvertReq :=
  { toSharedReq := ⟨.num 1, .num 0, none, some 4, .num 1, .num 1⟩,
    gamma := .absent, idatCompressionLevel := .absent, compressionBackend := none,
    lookControls := none }

/-- C7 witness: the concrete convert job with id 1, cancelled up front,
yields no response. -/
theorem runtime_cancellation_silent_witness :
    (handleM (.ok ⟨[0, 0, 0, 255], 1, 1⟩) (fun i _ => i) (fun _ l => l) [] 6 .lut [] []
      (.convert cancelConvertReq) [(1 : ℚ)]).1 = none :=
  runtime_cancellation_silent.1 ⟨[0, 0, 0, 255], 1, 1⟩ (fun i _ => i) (fun _ l => l) [] 6
    .lut [] [] cancelConvertReq [(1 : ℚ)]
    ((validateConvertRequest_ok_iff cancelConvertReq).mpr
      ⟨⟨by decide, by unfold boostRule; exact ⟨by decide, by decide⟩,
        by unfold fileRule; decide,
        Or.inr ⟨by decide, by decide, by decide, by decide⟩⟩,
        Or.inl rfl, Or.inl rfl, fun b hb => by cases hb⟩)
    (by simp [cancelConvertReq, numValue])

end Supernova
